import Mathlib

/-!
# Verification of the dmno configraph value-resolution engine

Shallow embedding of `src/packages/configraph/src/resolvers.ts`:
the `ConfigValueResolver` / `ConfigValueResolverBranch` tree, its
attempt-scoped state, the dependency map, `ResolverContext` (dependency
lookup `get`, `getDeclaredDependencyValues`, built-in cache methods), the
`resolve` algorithm, and the built-in constructors (`switchBy`,
`processInlineResolverDef`, `cacheFunctionResult`).

Modelling conventions:
* TS `undefined` for a `ConfigValue` is `Option.none`; mutable fields become
  explicit state threaded through pure functions; `async` is erased (each
  `resolve` call is one sequential unit of work).
* Identity fields `icon` / `label` of a resolver are omitted: no verified
  property mentions them and they feed into no other computation.
* The external node/entity/graph collaborators (config-node.ts) are modelled
  by the minimal capability surface the engine consumes: `isResolved`,
  `isValid`, `isFullyResolved`, `resolvedValue`, `getPath`, `getFullPath`,
  `getConfigNodeByPath` on the entity, `getItemByPath` on the graph root.
* Thrown JS values are `Thrown`: either a typed resolution error
  (`ResolutionError` and its two subclasses, told apart by `ErrKind`) or a
  plain `Error`.  `retryable` is `true` exactly on
  `DependencyNotResolvedResolutionError` (resolvers.ts lines 68-71).
-/

/-- Discriminates the `ResolutionError` class hierarchy:
`generic` = base `ResolutionError`, `depNotResolved` =
`DependencyNotResolvedResolutionError`, `depInvalid` =
`DependencyInvalidResolutionError`. -/
inductive ErrKind where
  | generic | depNotResolved | depInvalid
deriving BEq, Repr

/-- JS values thrown across the engine: a typed `ResolutionError`
(with subclass discriminant, message and optional wrapped cause) or a plain
`Error` carrying just a message. -/
inductive Thrown where
  | rerr (kind : ErrKind) (msg : String) (cause : Option Thrown)
  | plainErr (msg : String)
deriving BEq, Repr

/-- The recursive config value type (TS `ConfigValue` minus `undefined`,
which is modelled as `Option.none` at use sites). -/
inductive ConfigValue where
  | vStr (s : String)
  | vNum (n : Int)
  | vBool (b : Bool)
  | vArr (items : List ConfigValue)
  | vObj (fields : List (String × ConfigValue))
deriving BEq, Repr

/-- The `retryable` flag of a thrown value: `true` exactly on
`DependencyNotResolvedResolutionError` (`retryable = true` override,
resolvers.ts lines 68-70); plain `ResolutionError` and
`DependencyInvalidResolutionError` default to `false` (spec section 7). -/
def Thrown.retryable : Thrown → Bool
  | .rerr k _ _ => k == ErrKind.depNotResolved
  | .plainErr _ => false

/-- The `err instanceof ResolutionError` test used in the `catch` of
`ConfigValueResolver.resolve`. -/
def Thrown.isResolutionError : Thrown → Bool
  | .rerr _ _ _ => true
  | .plainErr _ => false

/-- Message carried by a thrown value. -/
def Thrown.message : Thrown → String
  | .rerr _ m _ => m
  | .plainErr m => m

/-- Kind of a thrown value; a plain `Error` has no `ResolutionError` kind,
so report it as `none`. -/
def Thrown.kind : Thrown → Option ErrKind
  | .rerr k _ _ => some k
  | .plainErr _ => none

/-- The minimal capability surface the engine consumes from an external
config node (config-node.ts is outside the embedded engine): its path
within the entity, its fully-qualified path, resolution/validity flags, the
recursive full-resolution flag and the resolved value (`none` =
`undefined`). -/
structure Node where
  path : String
  fullPath : String
  isResolved : Bool
  isValid : Bool
  isFullyResolved : Bool
  resolvedValue : Option ConfigValue
deriving BEq, Repr

/-- The external graph collaborators: the entity containing the node the
resolver is attached to (searched by `getConfigNodeByPath`) and the graph
root (searched by `getItemByPath`). -/
structure Graph where
  entityNodes : List Node
  rootNodes : List Node
deriving BEq, Repr

/-- Embeds `entity.getConfigNodeByPath(nodePath)`: first entity node with the
given (entity-relative) path. -/
def Graph.getConfigNodeByPath (g : Graph) (nodePath : String) : Option Node :=
  g.entityNodes.find? (fun n => n.path == nodePath)

/-- Embeds `graphRoot.getItemByPath(fullPath)`: first graph node with the given
fully-qualified path. -/
def Graph.getItemByPath (g : Graph) (fullPath : String) : Option Node :=
  g.rootNodes.find? (fun n => n.fullPath == fullPath)

/-- Tag of a dependency-map entry: discovered during the one-time schema
pass (`'schema'`) or during a live resolution attempt (`'resolution'`). -/
inductive DepKind where
  | schema | resolution
deriving DecidableEq, Repr

/-- The `dependsOnPathsObj` record: JS record from fully-qualified node path to
`DepKind`, modelled as an insertion-ordered association list. -/
abbrev DepMap := List (String × DepKind)

/-- Record lookup `obj[path]` (first matching key). -/
def DepMap.lookup : DepMap → String → Option DepKind
  | [], _ => none
  | e :: rest, p => if e.1 == p then some e.2 else DepMap.lookup rest p

/-- Embeds `obj[path] ||= 'resolution'` (ResolverContext.get, resolvers.ts line
428): insert a `resolution` entry only when the key is absent; an existing
`schema` (or `resolution`) entry is left untouched. -/
def DepMap.insertResolution (m : DepMap) (p : String) : DepMap :=
  match m.lookup p with
  | some _ => m
  | none => m ++ [(p, DepKind.resolution)]

/-- The deletion loop of `resetResolutionState` (resolvers.ts lines
160-164): drop every `resolution`-kind entry, keep `schema` entries. -/
def DepMap.dropResolution (m : DepMap) : DepMap :=
  m.filter (fun e => e.2 == DepKind.schema)

/-- Per-attempt dependency-recording state visible through a
`ResolverContext`: the context's own `dependsOnPathsObj` (a set of paths)
and the bound resolver's `dependsOnPathsObj`. -/
structure CtxDeps where
  ctxPaths : List String
  resolverDeps : DepMap
deriving BEq, Repr

/-- Embeds `this.dependsOnPathsObj[itemFullPath] = true` on the context: set
insertion. -/
def insertCtxPath (ps : List String) (p : String) : List String :=
  if ps.contains p then ps else ps ++ [p]

/-- Embeds `ResolverContext.get(nodePath)` (resolvers.ts lines 415-445): look the
node up in the entity (plain `Error` if absent, defensive path-mismatch
check), record the dependency on the context and non-destructively on the
bound resolver, then fail retryably if the node is unresolved, fail
non-retryably if it is invalid, and otherwise return its resolved value. -/
def ResolverContext.get (g : Graph) (cd : CtxDeps) (nodePath : String) :
    CtxDeps × Except Thrown (Option ConfigValue) :=
  match g.getConfigNodeByPath nodePath with
  | none =>
    (cd, .error (.plainErr
      ("Tried to get config node that does not exist \"" ++ nodePath ++ "\"")))
  | some node =>
    if node.path != nodePath then
      (cd, .error (.plainErr "node path did not match"))
    else
      let cd' : CtxDeps :=
        { ctxPaths := insertCtxPath cd.ctxPaths node.fullPath,
          resolverDeps := cd.resolverDeps.insertResolution node.fullPath }
      if !node.isResolved then
        (cd', .error (.rerr .depNotResolved
          ("Tried to access node that was not yet resolved - " ++ nodePath) none))
      else if !node.isValid then
        (cd', .error (.rerr .depInvalid
          ("Resolver tried to use node that is invalid - " ++ nodePath) none))
      else
        (cd', .ok node.resolvedValue)

/-- Embeds `ResolverContext.getDeclaredDependencyValues()` (resolvers.ts lines
449-464): map every entry of the bound resolver's dependency map to its
node's resolved value, looked up from the graph root; bail at the first
entry whose node is missing (generic error), not fully resolved (retryable
`DependencyNotResolvedResolutionError`) or invalid (generic
`ResolutionError`). -/
def getDeclaredDependencyValues (g : Graph) :
    DepMap → Except Thrown (List (String × Option ConfigValue))
  | [] => .ok []
  | e :: rest =>
    match g.getItemByPath e.1 with
    | none => .error (.rerr .generic ("Invalid declared dependency path - " ++ e.1) none)
    | some depNode =>
      if !depNode.isFullyResolved then
        .error (.rerr .depNotResolved "dependency not resolved yet" none)
      else if !depNode.isValid then
        .error (.rerr .generic "declared dependency is resolved but not valid" none)
      else
        match getDeclaredDependencyValues g rest with
        | .ok xs => .ok ((e.1, depNode.resolvedValue) :: xs)
        | .error err => .error err

/-- Built-in `ResolverContext.getCacheItem` (resolvers.ts lines 469-473):
always a cache miss. -/
def ResolverContext.getCacheItem (_key : String) : Option ConfigValue :=
  none

/-- Built-in `ResolverContext.setCacheItem` (resolvers.ts lines 474-479):
returns without touching any cache store. -/
def ResolverContext.setCacheItem (_key : String) (_value : ConfigValue)
    (cacheStore : List (String × ConfigValue)) : List (String × ConfigValue) :=
  cacheStore

/-- Deep embedding of a user evaluation function
(`(ctx) => MaybePromise<ValueResolverResult>`): return a value (`none` =
`undefined`), throw, or call `ctx.get(path)` and continue with the result. -/
inductive EvalFn where
  | ret (v : Option ConfigValue)
  | thrw (t : Thrown)
  | getThen (path : String) (k : Option ConfigValue → EvalFn)

/-- Deep embedding of a branch condition
(`(ctx) => boolean`): return a boolean, throw, or call `ctx.get(path)` and
continue with the result. -/
inductive CondFn where
  | retB (b : Bool)
  | thrwC (t : Thrown)
  | getThenC (path : String) (k : Option ConfigValue → CondFn)

/-- Run an evaluation function against the graph, threading the
dependency-recording state of the attempt's context. -/
def runEval (g : Graph) : CtxDeps → EvalFn → CtxDeps × Except Thrown (Option ConfigValue)
  | cd, .ret v => (cd, .ok v)
  | cd, .thrw t => (cd, .error t)
  | cd, .getThen p k =>
    match ResolverContext.get g cd p with
    | (cd', .ok v) => runEval g cd' (k v)
    | (cd', .error e) => (cd', .error e)

/-- Run a branch condition against the graph, threading the
dependency-recording state of the attempt's context. -/
def runCond (g : Graph) : CtxDeps → CondFn → CtxDeps × Except Thrown Bool
  | cd, .retB b => (cd, .ok b)
  | cd, .thrwC t => (cd, .error t)
  | cd, .getThenC p k =>
    match ResolverContext.get g cd p with
    | (cd', .ok v) => runCond g cd' (k v)
    | (cd', .error e) => (cd', .error e)

/-- The optional `cacheKey` of a resolver definition: a constant string or
a function of the context (of which the engine's own constructors only ever
use `(ctx) => ctx.resolverFullPath`, see `cacheFunctionResult`). -/
inductive CacheKeyDef where
  | ckStatic (s : String)
  | ckFromFullPath

/-- Attempt-scoped state of a `ConfigValueResolver` (fields
`isResolved`, `resolvedValue`, `resolutionError`, `isUsingCache`). -/
structure RState where
  isResolved : Bool
  resolvedValue : Option ConfigValue
  resolutionError : Option Thrown
  isUsingCache : Bool

/-- Initial attempt-scoped state of a freshly constructed resolver. -/
def initRState : RState :=
  { isResolved := false, resolvedValue := none,
    resolutionError := none, isUsingCache := false }

mutual
/-- A `ConfigValueResolver`: its definition (cache key plus either an
evaluation function or branch definitions), its attempt-scoped state and
its dependency map. -/
inductive Resolver where
  | mk (cacheKey : Option CacheKeyDef) (rdef : RDef) (st : RState) (deps : DepMap)
/-- The tagged union inside a resolver definition: leaf (`resolve` fn) or
branch-set (`resolveBranches`). -/
inductive RDef where
  | leafDef (fn : EvalFn)
  | branchesDef (branches : List Branch)
/-- A `ConfigValueResolverBranch`: immutable definition fields
(`id`, `label`, `isDefault`, `condition`), the attempt-scoped `isActive`
flag, and the owned inner resolver. -/
inductive Branch where
  | mk (id : String) (label : String) (isDefault : Bool)
       (condition : CondFn) (isActive : Bool) (resolver : Resolver)
end

def Resolver.cacheKey : Resolver → Option CacheKeyDef
  | .mk ck _ _ _ => ck

def Resolver.rdef : Resolver → RDef
  | .mk _ d _ _ => d

def Resolver.st : Resolver → RState
  | .mk _ _ s _ => s

def Resolver.deps : Resolver → DepMap
  | .mk _ _ _ d => d

def Branch.id : Branch → String
  | .mk i _ _ _ _ _ => i

def Branch.label : Branch → String
  | .mk _ l _ _ _ _ => l

def Branch.isDefault : Branch → Bool
  | .mk _ _ d _ _ _ => d

def Branch.condition : Branch → CondFn
  | .mk _ _ _ c _ _ => c

def Branch.isActive : Branch → Bool
  | .mk _ _ _ _ a _ => a

def Branch.resolver : Branch → Resolver
  | .mk _ _ _ _ _ r => r

/-- The branch list of a branch-set resolver (`[]` for a leaf). -/
def Resolver.branches (r : Resolver) : List Branch :=
  match r.rdef with
  | .leafDef _ => []
  | .branchesDef bs => bs

mutual
/-- Embeds `ConfigValueResolver.resetResolutionState` (resolvers.ts lines
158-169): delete `resolutionError`, delete every `resolution`-kind
dependency entry, and deactivate / reset every branch recursively.
(`isResolved`, `resolvedValue`, `isUsingCache` are not touched.) -/
def Resolver.resetResolutionState : Resolver → Resolver
  | .mk ck d st deps =>
    .mk ck (RDef.reset d)
      { st with resolutionError := none }
      deps.dropResolution
/-- Reset on the definition part: recurse into branch definitions. -/
def RDef.reset : RDef → RDef
  | .leafDef fn => .leafDef fn
  | .branchesDef bs => .branchesDef (resetBranches bs)
/-- Embeds `this.branches?.forEach((b) => { b.isActive = false;
b.resolver.resetResolutionState(); })`. -/
def resetBranches : List Branch → List Branch
  | [] => []
  | .mk i l d c _ r :: rest =>
    .mk i l d c false r.resetResolutionState :: resetBranches rest
end

/-- Compute the attempt's cache key from the definition's `cacheKey` field
(`_.isString` case and function-of-context case, resolvers.ts lines
214-219; the only key function the engine constructs is
`(ctx) => ctx.resolverFullPath`). -/
def cacheKeyOf (ck : Option CacheKeyDef) (fp : String) : Option String :=
  match ck with
  | none => none
  | some (.ckStatic s) => some s
  | some .ckFromFullPath => some fp

/-- Embeds `ConfigValueResolver.getFullPath` seen from a branch's inner resolver:
the owning node's full path joined with `#` to the branch-id chain, the
chain itself joined with `/` (resolvers.ts lines 139-156). -/
def childFullPath (fp : String) (branchId : String) : String :=
  if fp.contains '#' then fp ++ "/" ++ branchId else fp ++ "#" ++ branchId

/-- First index at or after `i` whose element satisfies `p`
(`_.find` position bookkeeping). -/
def findIdxFrom {A : Type} (p : A → Bool) : Nat → List A → Option Nat
  | _, [] => none
  | i, a :: as => if p a then some i else findIdxFrom p (i+1) as

/-- The cache query of step (2) of `resolve`: `await ctx.getCacheItem(cacheKey)`
when a key was computed, otherwise no query (treated as a miss). -/
def cacheHitOf (cacheGet : String → Option ConfigValue) (key : Option String) :
    Option ConfigValue :=
  match key with
  | some k => cacheGet k
  | none => none

/-- Result of the branch-condition scan
(`_.find(this.branches, ...)`, resolvers.ts lines 236-244): final
dependency-recording state, the last condition-error wrapper recorded on
`this.resolutionError` (if any condition threw), and the index of the first
non-default branch whose condition returned `true`. -/
structure ScanOut where
  cd : CtxDeps
  errLast : Option Thrown
  matchIdx : Option Nat

/-- The `_.find` predicate loop: skip default branches; a condition
returning `true` stops the scan; a thrown condition stores a wrapping
`ResolutionError` naming the branch (overwriting any earlier one) and the
scan continues. -/
def condScan (g : Graph) : CtxDeps → Option Thrown → Nat → List Branch → ScanOut
  | cd, errLast, _, [] => { cd := cd, errLast := errLast, matchIdx := none }
  | cd, errLast, i, b :: rest =>
    if b.isDefault then condScan g cd errLast (i+1) rest
    else
      match runCond g cd b.condition with
      | (cd', .ok true) => { cd := cd', errLast := errLast, matchIdx := some i }
      | (cd', .ok false) => condScan g cd' errLast (i+1) rest
      | (cd', .error e) =>
        condScan g cd'
          (some (.rerr .generic
            ("Error in resolver branch condition (" ++ b.label ++ ")") (some e)))
          (i+1) rest

/-- Result of one `resolve(ctx)` call: the resolver with its updated
attempt-scoped state, the context's own accumulated dependency set, the
outcome across the call boundary (`.error` = the call threw), and the
`setCacheItem` invocations made during the attempt. -/
structure ResolveOut where
  res : Resolver
  ctxPaths : List String
  outcome : Except Thrown Unit
  writes : List (String × ConfigValue)

mutual
/-- Embeds `ConfigValueResolver.resolve(ctx)` (resolvers.ts lines 205-299).
Steps: (1) `resetResolutionState` — transcribed per field: `st0` clears the
error, `deps0` drops `resolution` entries, non-selected branches are
deactivated and reset in `resolveBranchList`, and the selected branch's
subtree is reset by its own recursive `resolve` call (equal by
`reset_idempotent`); (2) compute the cache key and short-circuit on a cache
hit; (3) branch-set case: scan conditions, bail if one threw, fall back to
the default branch on no match, throw on no default, activate the chosen
branch and recursively resolve its inner resolver against a fresh child
context, copying its value up; leaf case: run the evaluation function,
storing a thrown `ResolutionError` unchanged and wrapping any other thrown
value in a generic one (the wrapping constructor lives in errors.ts,
outside the embedded engine; modelled from the spec: a generic,
non-retryable resolution error carrying the original cause); (4) on
success, record a cache write when a key is present and the value is not
`undefined`. -/
def Resolver.resolve (g : Graph) (cacheGet : String → Option ConfigValue) (fp : String) :
    Resolver → ResolveOut
  | .mk ck rdef st deps =>
    let st0 : RState := { st with resolutionError := none }
    let deps0 := deps.dropResolution
    let key? := cacheKeyOf ck fp
    match cacheHitOf cacheGet key? with
    | some cachedValue =>
      { res := .mk ck (RDef.reset rdef)
          { st0 with resolvedValue := some cachedValue,
                     isResolved := true, isUsingCache := true } deps0,
        ctxPaths := [], outcome := .ok (), writes := [] }
    | none =>
      match rdef with
      | .branchesDef bs =>
        let sc := condScan g { ctxPaths := [], resolverDeps := deps0 } none 0 bs
        match sc.errLast with
        | some e =>
          { res := .mk ck (.branchesDef (resetBranches bs))
              { st0 with resolutionError := some e, isResolved := false }
              sc.cd.resolverDeps,
            ctxPaths := sc.cd.ctxPaths, outcome := .ok (), writes := [] }
        | none =>
          let selIdx : Option Nat :=
            match sc.matchIdx with
            | some i => some i
            | none => findIdxFrom Branch.isDefault 0 bs
          match selIdx with
          | none =>
            { res := .mk ck (.branchesDef (resetBranches bs)) st0 sc.cd.resolverDeps,
              ctxPaths := sc.cd.ctxPaths,
              outcome := .error (.rerr .generic
                "no matching resolver branch found and no default" none),
              writes := [] }
          | some sel =>
            match resolveBranchList g cacheGet fp sel 0 bs with
            | (bs', some childOut) =>
              match childOut.outcome with
              | .error e =>
                { res := .mk ck (.branchesDef bs') st0 sc.cd.resolverDeps,
                  ctxPaths := sc.cd.ctxPaths, outcome := .error e,
                  writes := childOut.writes }
              | .ok _ =>
                let newVal := childOut.res.st.resolvedValue
                { res := .mk ck (.branchesDef bs')
                    { st0 with resolvedValue := newVal, isResolved := true }
                    sc.cd.resolverDeps,
                  ctxPaths := sc.cd.ctxPaths, outcome := .ok (),
                  writes := childOut.writes ++
                    (match key?, newVal with
                     | some k, some v => [(k, v)]
                     | _, _ => []) }
            | (bs', none) =>
              -- dead code: `sel` is always an index into `bs`
              { res := .mk ck (.branchesDef bs') st0 sc.cd.resolverDeps,
                ctxPaths := sc.cd.ctxPaths, outcome := .ok (), writes := [] }
      | .leafDef fn =>
        match runEval g { ctxPaths := [], resolverDeps := deps0 } fn with
        | (cd1, .ok v) =>
          { res := .mk ck (.leafDef fn)
              { st0 with resolvedValue := v, isResolved := true }
              cd1.resolverDeps,
            ctxPaths := cd1.ctxPaths, outcome := .ok (),
            writes := match key?, v with
              | some k, some vv => [(k, vv)]
              | _, _ => [] }
        | (cd1, .error e) =>
          { res := .mk ck (.leafDef fn)
              { st0 with
                  resolutionError := some
                    (if e.isResolutionError then e
                     else .rerr .generic e.message (some e)),
                  isResolved := false }
              cd1.resolverDeps,
            ctxPaths := cd1.ctxPaths, outcome := .ok (), writes := [] }
/-- Embeds `_.each(this.branches, (branch) => { branch.isActive =
branch === matchingBranch; })` fused with the recursive resolution of the
matching branch's inner resolver (`await matchingBranchResolver.resolve(new
ResolverContext(matchingBranchResolver))`): walk the branch list, mark the
branch at index `sel` active and resolve it, deactivate and reset every
other branch. -/
def resolveBranchList (g : Graph) (cacheGet : String → Option ConfigValue)
    (fp : String) (sel : Nat) : Nat → List Branch → List Branch × Option ResolveOut
  | _, [] => ([], none)
  | i, .mk bid lbl dflt c _ child :: rest =>
    if i == sel then
      let childOut := Resolver.resolve g cacheGet (childFullPath fp bid) child
      let tail := resolveBranchList g cacheGet fp sel (i+1) rest
      (.mk bid lbl dflt c true childOut.res :: tail.1, some childOut)
    else
      let tail := resolveBranchList g cacheGet fp sel (i+1) rest
      (.mk bid lbl dflt c false child.resetResolutionState :: tail.1, tail.2)
end

/-- Models `if (x) return x; ... return y` on optional errors: keep the first
present value. -/
def orElseO (x y : Option Thrown) : Option Thrown :=
  match x with
  | some e => some e
  | none => y

mutual
/-- Embeds `get selfOrChildResolutionError()` (resolvers.ts lines 107-114): own
error if set, otherwise the first error found walking *all* branches'
resolvers in order. -/
def selfOrChildResolutionError : Resolver → Option Thrown
  | .mk _ (.leafDef _) st _ => st.resolutionError
  | .mk _ (.branchesDef bs) st _ =>
    orElseO st.resolutionError (firstBranchResolutionError bs)
/-- The `for (const b of this.branches)` loop of
`selfOrChildResolutionError`. -/
def firstBranchResolutionError : List Branch → Option Thrown
  | [] => none
  | .mk _ _ _ _ _ r :: rest =>
    orElseO (selfOrChildResolutionError r) (firstBranchResolutionError rest)
end

/-- Embeds `get isFullyResolved()` (resolvers.ts lines 116-119). -/
def Resolver.isFullyResolved (r : Resolver) : Bool :=
  r.st.isResolved && (selfOrChildResolutionError r).isNone

/-- JS strict equality `value === itemKey` between a possibly-`undefined`
config value and a string case key: true exactly when the value is that
string. -/
def strictEqStr (v : Option ConfigValue) (s : String) : Bool :=
  match v with
  | some (.vStr t) => t == s
  | _ => false

/-- The `InlineValueResolverDef` union: a static value (including an explicit
`undefined`), an already-built resolver, or an inline function. -/
inductive InlineValueResolverDef where
  | staticVal (v : Option ConfigValue)
  | fnVal (f : EvalFn)
  | resolverVal (r : Resolver)

/-- Embeds `processInlineResolverDef` (resolvers.ts lines 345-374): an inline
function becomes a leaf resolver running it, a resolver is returned as-is,
and a static value becomes a leaf resolver returning it. -/
def processInlineResolverDef : InlineValueResolverDef → Resolver
  | .fnVal f => .mk none (.leafDef f) initRState []
  | .resolverVal r => r
  | .staticVal v => .mk none (.leafDef (.ret v)) initRState []

/-- Embeds `switchBy(switchByKey, branches)` (resolvers.ts lines 558-580): one
branch per case key, in declared order; a key of `'_default'` or `'_'`
marks the default branch; each condition reads the discriminant through the
context and compares it for strict equality against the case key.  (The
`process` hook registering the `schema` dependency acts on the node's
schema pass and is exercised here by seeding the dependency map.) -/
def switchBy (switchByKey : String)
    (branches : List (String × InlineValueResolverDef)) : Resolver :=
  .mk none
    (.branchesDef (branches.map (fun p =>
      .mk p.1 (switchByKey ++ " === \"" ++ p.1 ++ "\"")
        (p.1 == "_default" || p.1 == "_")
        (.getThenC switchByKey (fun v => .retB (strictEqStr v p.1)))
        false
        (processInlineResolverDef p.2))))
    initRState []

/-- Embeds `cacheFunctionResult` (resolvers.ts lines 500-515): a leaf resolver
over the supplied function whose cache key is the explicit one when given
and otherwise derived from the resolver's own full path. -/
def cacheFunctionResult (explicitCacheKey : Option String) (resolverFn : EvalFn) :
    Resolver :=
  .mk (some (match explicitCacheKey with
    | some k => .ckStatic k
    | none => .ckFromFullPath))
    (.leafDef resolverFn) initRState []

/-- Number of active branches in a list. -/
def countActive (bs : List Branch) : Nat :=
  (bs.filter Branch.isActive).length

/-- The `isActive` flags of a branch list, in order. -/
def activeFlags (bs : List Branch) : List Bool :=
  bs.map Branch.isActive

mutual
/-- No branch anywhere in the resolver tree is active. -/
def allBranchesInactive : Resolver → Bool
  | .mk _ d _ _ =>
    match d with
    | .leafDef _ => true
    | .branchesDef bs => allInactiveBranchList bs
/-- Branch-list form of `allBranchesInactive`. -/
def allInactiveBranchList : List Branch → Bool
  | [] => true
  | .mk _ _ _ _ a r :: rest =>
    !a && allBranchesInactive r && allInactiveBranchList rest
end

mutual
/-- No `resolutionError` is stored anywhere in the resolver tree. -/
def noErrAnywhere : Resolver → Bool
  | .mk _ d st _ =>
    st.resolutionError.isNone &&
      (match d with
       | .leafDef _ => true
       | .branchesDef bs => noErrBranchList bs)
/-- Branch-list form of `noErrAnywhere`. -/
def noErrBranchList : List Branch → Bool
  | [] => true
  | .mk _ _ _ _ _ r :: rest => noErrAnywhere r && noErrBranchList rest
end

mutual
/-- No `isUsingCache` flag is set anywhere in the resolver tree. -/
def notUsingCacheAnywhere : Resolver → Bool
  | .mk _ d st _ =>
    !st.isUsingCache &&
      (match d with
       | .leafDef _ => true
       | .branchesDef bs => notUsingCacheBranchList bs)
/-- Branch-list form of `notUsingCacheAnywhere`. -/
def notUsingCacheBranchList : List Branch → Bool
  | [] => true
  | .mk _ _ _ _ _ r :: rest => notUsingCacheAnywhere r && notUsingCacheBranchList rest
end

mutual
/-- The error along the *active branch chain*, following the spec's
reading of full resolution: walk from the resolver to its active branch's
inner resolver, recursively; report the first stored error met below the
root.  (This is the spec-side counterpart against which the code's
all-branches walk `selfOrChildResolutionError` is compared.) -/
def activeChainError : Resolver → Option Thrown
  | .mk _ d _ _ =>
    match d with
    | .leafDef _ => none
    | .branchesDef bs => activeChainErrorBranchList bs
/-- Branch-list form of `activeChainError`: first *active* branch decides. -/
def activeChainErrorBranchList : List Branch → Option Thrown
  | [] => none
  | .mk _ _ _ _ a r :: rest =>
    if a then orElseO r.st.resolutionError (activeChainError r)
    else activeChainErrorBranchList rest
end

mutual
/-- Invariant of resolver trees produced by `resolve`: at every branch-set
level at most one branch is active, every inactive branch's subtree is
error-free, and the invariant continues along the active branch. -/
def offChainClean : Resolver → Bool
  | .mk _ d _ _ =>
    match d with
    | .leafDef _ => true
    | .branchesDef bs => decide (countActive bs ≤ 1) && offChainCleanBranchList bs
/-- Branch-list form of `offChainClean`. -/
def offChainCleanBranchList : List Branch → Bool
  | [] => true
  | .mk _ _ _ _ a r :: rest =>
    (if a then offChainClean r else noErrAnywhere r) && offChainCleanBranchList rest
end

-- Concrete fixtures used by the claim theorems below.
def envNode (v : String) : Node :=
  { path := "ENV", fullPath := "root!ENV", isResolved := true, isValid := true,
    isFullyResolved := true, resolvedValue := some (.vStr v) }

def gProd : Graph := { entityNodes := [envNode "prod"], rootNodes := [envNode "prod"] }
def gStaging : Graph := { entityNodes := [envNode "staging"], rootNodes := [envNode "staging"] }

def swResolver : Resolver :=
  switchBy "ENV"
    [("prod", .staticVal (some (.vStr "A"))),
     ("dev", .staticVal (some (.vStr "B"))),
     ("_default", .staticVal (some (.vStr "C")))]

-- C1 scenario: leaf calling get on unresolved X
def xNode : Node :=
  { path := "X", fullPath := "root!X", isResolved := false, isValid := true,
    isFullyResolved := false, resolvedValue := none }
def gX : Graph := { entityNodes := [xNode], rootNodes := [xNode] }
def leafGetX : Resolver := .mk none (.leafDef (.getThen "X" (fun v => .ret v))) initRState []

-- C3 scenario: first condition throws, second condition calls get (observable side effect)
def depNode : Node :=
  { path := "DEP", fullPath := "root!DEP", isResolved := true, isValid := true,
    isFullyResolved := true, resolvedValue := some (.vStr "d") }
def gDep : Graph := { entityNodes := [depNode], rootNodes := [depNode] }
def throwingBranchSet : Resolver :=
  .mk none
    (.branchesDef
      [.mk "b1" "first" false (.thrwC (.plainErr "boom")) false
         (.mk none (.leafDef (.ret (some (.vStr "one")))) initRState []),
       .mk "b2" "second" false
         (.getThenC "DEP" (fun _ => .retB false)) false
         (.mk none (.leafDef (.ret (some (.vStr "two")))) initRState [])])
    initRState []

-- fixture: a resolver carrying full stale attempt state
def staleChild : Resolver :=
  .mk none (.leafDef (.ret none))
    { isResolved := false, resolvedValue := none,
      resolutionError := some (.plainErr "child error"), isUsingCache := false } []

def staleResolver : Resolver :=
  .mk none
    (.branchesDef [.mk "b" "branch b" false (.retB true) true staleChild])
    { isResolved := true, resolvedValue := some (.vStr "v"),
      resolutionError := some (.rerr .generic "old error" none), isUsingCache := true }
    [("root!P", .schema), ("root!Q", .resolution)]

/-- Witness for C7: a leaf whose evaluation function would throw resolves
from the cache without running it and without writing back. -/
def hitCache (key : String) : Option ConfigValue :=
  if key == "K" then some (.vStr "cached") else none

-- fixtures for C9: a resolved-but-invalid node, a resolved-but-not-fully-
-- resolved node, and a fully usable node
def invalidNode : Node :=
  { path := "IV", fullPath := "root!IV", isResolved := true, isValid := false,
    isFullyResolved := true, resolvedValue := some (.vStr "bad") }

def halfNode : Node :=
  { path := "HF", fullPath := "root!HF", isResolved := true, isValid := true,
    isFullyResolved := false, resolvedValue := some (.vStr "half") }

def goodNode : Node :=
  { path := "OK", fullPath := "root!OK", isResolved := true, isValid := true,
    isFullyResolved := true, resolvedValue := some (.vStr "fine") }

def gMixed : Graph :=
  { entityNodes := [invalidNode, halfNode, goodNode],
    rootNodes := [invalidNode, halfNode, goodNode] }

/-- Spec-side view of a dependency node's value, for stating the success
case of `getDeclaredDependencyValues`. -/
def valueAt (g : Graph) (p : String) : Option ConfigValue :=
  match g.getItemByPath p with
  | some n => n.resolvedValue
  | none => none

/-- Spec-side check a dependency-map entry must pass for
`getDeclaredDependencyValues` to succeed on it: node found at the graph
root, fully resolved, and valid. -/
def depEntryPasses (g : Graph) (p : String) : Bool :=
  match g.getItemByPath p with
  | none => false
  | some n => n.isFullyResolved && n.isValid

-- fixture: a branch-set whose (only, chosen) branch has a failing inner leaf
def failingChildSet : Resolver :=
  .mk none
    (.branchesDef [.mk "b1" "branch one" false (.retB true) false
      (.mk none (.leafDef (.thrw (.rerr .generic "inner fail" none))) initRState [])])
    initRState []

/-- The (state-independent) result of a branch condition: conditions only
record dependencies through the threaded context, they never read it, so
their boolean-or-throw outcome is a pure function of the graph. -/
def evalCondPure (g : Graph) (c : CondFn) : Except Thrown Bool :=
  (runCond g { ctxPaths := [], resolverDeps := [] } c).2

/-- Whether the `_.find` scan selects this branch: non-default and its
condition returns `true` (a thrown or false condition does not match). -/
def branchMatchesPure (g : Graph) (b : Branch) : Bool :=
  !b.isDefault &&
    (match evalCondPure g b.condition with
     | .ok bv => bv
     | .error _ => false)

/-- The `isActive` flags the activate-and-resolve walk assigns: `true`
exactly at the selected index. -/
def selFlagsOpt (sel : Option Nat) : Nat → List Branch → List Bool
  | _, [] => []
  | i, _ :: rest =>
    (match sel with
     | some s => i == s
     | none => false) :: selFlagsOpt sel (i+1) rest

mutual
/-- Idempotence of `resetResolutionState` (clearing an already cleared
error, re-filtering a filtered map and re-deactivating inactive branches
change nothing).  This licenses the fused transcription of `resolve` below,
where the selected branch's subtree is reset by the recursive `resolve`
call itself instead of being reset twice. -/
theorem reset_idempotent : ∀ (r : Resolver),
    r.resetResolutionState.resetResolutionState = r.resetResolutionState
  | .mk ck d st deps => by
    simp [Resolver.resetResolutionState, resetRDef_idempotent d,
          DepMap.dropResolution, List.filter_filter]
/-- Idempotence of the definition part of the reset. -/
theorem resetRDef_idempotent : ∀ (d : RDef),
    RDef.reset (RDef.reset d) = RDef.reset d
  | .leafDef _ => rfl
  | .branchesDef bs => by simp [RDef.reset, resetBranches_idempotent bs]
/-- Idempotence of the branch-list part of the reset. -/
theorem resetBranches_idempotent : ∀ (bs : List Branch),
    resetBranches (resetBranches bs) = resetBranches bs
  | [] => rfl
  | .mk _ _ _ _ _ r :: rest => by
    simp [resetBranches, reset_idempotent r, resetBranches_idempotent rest]
end

theorem DepMap.lookup_append (m m' : DepMap) (p : String) :
    DepMap.lookup (m ++ m') p =
      match DepMap.lookup m p with
      | some k => some k
      | none => DepMap.lookup m' p := by
  induction m with
  | nil => simp [DepMap.lookup]
  | cons e rest ih =>
    simp only [List.cons_append, DepMap.lookup]
    split <;> simp [ih]

theorem DepMap.insertResolution_preserves_schema (m : DepMap) (q p : String)
    (h : m.lookup p = some .schema) :
    (m.insertResolution q).lookup p = some .schema := by
  unfold DepMap.insertResolution
  split
  · exact h
  · rw [DepMap.lookup_append, h]

theorem DepMap.dropResolution_preserves_schema (m : DepMap) (p : String)
    (h : m.lookup p = some .schema) :
    m.dropResolution.lookup p = some .schema := by
  induction m with
  | nil => simp [DepMap.lookup] at h
  | cons e rest ih =>
    rw [DepMap.lookup] at h
    by_cases hp : e.1 == p
    · simp only [hp, if_pos] at h
      have he : e.2 = DepKind.schema := by injection h
      simp [DepMap.dropResolution, List.filter_cons, he, DepMap.lookup, hp]
    · simp only [hp] at h
      simp only [if_neg, Bool.false_eq_true, not_false_iff] at h
      unfold DepMap.dropResolution at ih ⊢
      rw [List.filter_cons]
      split
      · rw [DepMap.lookup, if_neg (by simp_all)]
        exact ih h
      · exact ih h

theorem DepMap.dropResolution_no_resolution (m : DepMap) (p : String) :
    m.dropResolution.lookup p ≠ some .resolution := by
  induction m with
  | nil => simp [DepMap.dropResolution, DepMap.lookup]
  | cons e rest ih =>
    unfold DepMap.dropResolution at ih ⊢
    rw [List.filter_cons]
    split
    · rw [DepMap.lookup]
      split
      · rename_i hkeep _
        simp only [beq_iff_eq] at hkeep
        simp [hkeep]
      · exact ih
    · exact ih

theorem get_preserves_schema (g : Graph) (cd : CtxDeps) (x p : String)
    (h : cd.resolverDeps.lookup p = some .schema) :
    ((ResolverContext.get g cd x).1.resolverDeps).lookup p = some .schema := by
  unfold ResolverContext.get
  cases g.getConfigNodeByPath x with
  | none => exact h
  | some node =>
    simp only []
    split
    · exact h
    · split
      · exact DepMap.insertResolution_preserves_schema _ _ _ h
      · split
        · exact DepMap.insertResolution_preserves_schema _ _ _ h
        · exact DepMap.insertResolution_preserves_schema _ _ _ h

theorem runEval_preserves_schema (g : Graph) (fn : EvalFn) :
    ∀ (cd : CtxDeps) (p : String), cd.resolverDeps.lookup p = some .schema →
      (((runEval g cd fn).1).resolverDeps).lookup p = some .schema := by
  induction fn with
  | ret v => intro cd p h; exact h
  | thrw t => intro cd p h; exact h
  | getThen q k ih =>
    intro cd p h
    unfold runEval
    cases hg : ResolverContext.get g cd q with
    | mk cd' res =>
      have h' : cd'.resolverDeps.lookup p = some .schema := by
        have hgp := get_preserves_schema g cd q p h
        rw [hg] at hgp
        exact hgp
      cases res with
      | ok v => exact ih v cd' p h'
      | error e => exact h'

theorem runCond_preserves_schema (g : Graph) (c : CondFn) :
    ∀ (cd : CtxDeps) (p : String), cd.resolverDeps.lookup p = some .schema →
      (((runCond g cd c).1).resolverDeps).lookup p = some .schema := by
  induction c with
  | retB b => intro cd p h; exact h
  | thrwC t => intro cd p h; exact h
  | getThenC q k ih =>
    intro cd p h
    unfold runCond
    cases hg : ResolverContext.get g cd q with
    | mk cd' res =>
      have h' : cd'.resolverDeps.lookup p = some .schema := by
        have hgp := get_preserves_schema g cd q p h
        rw [hg] at hgp
        exact hgp
      cases res with
      | ok v => exact ih v cd' p h'
      | error e => exact h'

theorem condScan_preserves_schema (g : Graph) :
    ∀ (bs : List Branch) (cd : CtxDeps) (err : Option Thrown) (i : Nat) (p : String),
      cd.resolverDeps.lookup p = some .schema →
      (((condScan g cd err i bs).cd).resolverDeps).lookup p = some .schema := by
  intro bs
  induction bs with
  | nil => intro cd err i p h; exact h
  | cons b rest ih =>
    intro cd err i p h
    unfold condScan
    split
    · exact ih cd err (i+1) p h
    · cases hrc : runCond g cd b.condition with
      | mk cd' res =>
        have h' : cd'.resolverDeps.lookup p = some .schema := by
          have hcp := runCond_preserves_schema g b.condition cd p h
          rw [hrc] at hcp
          exact hcp
        cases res with
        | ok bv =>
          cases bv with
          | true => exact h'
          | false => exact ih cd' err (i+1) p h'
        | error e => exact ih cd' _ (i+1) p h'

theorem resolve_hit (g : Graph) (cg : String → Option ConfigValue) (fp : String)
    (ck : Option CacheKeyDef) (rdef : RDef) (st : RState) (deps : DepMap)
    (v : ConfigValue) (hv : cacheHitOf cg (cacheKeyOf ck fp) = some v) :
    Resolver.resolve g cg fp (.mk ck rdef st deps) =
      { res := .mk ck (RDef.reset rdef)
          { isResolved := true, resolvedValue := some v,
            resolutionError := none, isUsingCache := true }
          deps.dropResolution,
        ctxPaths := [], outcome := .ok (), writes := [] } := by
  unfold Resolver.resolve
  simp only [hv]

theorem resolve_miss_leaf_ok (g : Graph) (cg : String → Option ConfigValue) (fp : String)
    (ck : Option CacheKeyDef) (fn : EvalFn) (st : RState) (deps : DepMap)
    (cd1 : CtxDeps) (v : Option ConfigValue)
    (hm : cacheHitOf cg (cacheKeyOf ck fp) = none)
    (he : runEval g { ctxPaths := [], resolverDeps := deps.dropResolution } fn
            = (cd1, .ok v)) :
    Resolver.resolve g cg fp (.mk ck (.leafDef fn) st deps) =
      { res := .mk ck (.leafDef fn)
          { isResolved := true, resolvedValue := v,
            resolutionError := none, isUsingCache := st.isUsingCache }
          cd1.resolverDeps,
        ctxPaths := cd1.ctxPaths, outcome := .ok (),
        writes := match cacheKeyOf ck fp, v with
          | some k, some vv => [(k, vv)]
          | _, _ => [] } := by
  unfold Resolver.resolve
  simp only [hm, he]
  cases cacheKeyOf ck fp <;> cases v <;> rfl

theorem resolve_miss_leaf_error (g : Graph) (cg : String → Option ConfigValue) (fp : String)
    (ck : Option CacheKeyDef) (fn : EvalFn) (st : RState) (deps : DepMap)
    (cd1 : CtxDeps) (e : Thrown)
    (hm : cacheHitOf cg (cacheKeyOf ck fp) = none)
    (he : runEval g { ctxPaths := [], resolverDeps := deps.dropResolution } fn
            = (cd1, .error e)) :
    Resolver.resolve g cg fp (.mk ck (.leafDef fn) st deps) =
      { res := .mk ck (.leafDef fn)
          { isResolved := false, resolvedValue := st.resolvedValue,
            resolutionError := some
              (if e.isResolutionError then e else .rerr .generic e.message (some e)),
            isUsingCache := st.isUsingCache }
          cd1.resolverDeps,
        ctxPaths := cd1.ctxPaths, outcome := .ok (), writes := [] } := by
  unfold Resolver.resolve
  simp only [hm, he]

theorem resolve_miss_branches_scanErr (g : Graph) (cg : String → Option ConfigValue)
    (fp : String) (ck : Option CacheKeyDef) (bs : List Branch) (st : RState)
    (deps : DepMap) (sc : ScanOut) (e : Thrown)
    (hm : cacheHitOf cg (cacheKeyOf ck fp) = none)
    (hs : condScan g { ctxPaths := [], resolverDeps := deps.dropResolution } none 0 bs = sc)
    (he : sc.errLast = some e) :
    Resolver.resolve g cg fp (.mk ck (.branchesDef bs) st deps) =
      { res := .mk ck (.branchesDef (resetBranches bs))
          { isResolved := false, resolvedValue := st.resolvedValue,
            resolutionError := some e, isUsingCache := st.isUsingCache }
          sc.cd.resolverDeps,
        ctxPaths := sc.cd.ctxPaths, outcome := .ok (), writes := [] } := by
  unfold Resolver.resolve
  simp only [hm, hs, he]

theorem resolve_miss_branches_noSel (g : Graph) (cg : String → Option ConfigValue)
    (fp : String) (ck : Option CacheKeyDef) (bs : List Branch) (st : RState)
    (deps : DepMap) (sc : ScanOut)
    (hm : cacheHitOf cg (cacheKeyOf ck fp) = none)
    (hs : condScan g { ctxPaths := [], resolverDeps := deps.dropResolution } none 0 bs = sc)
    (he : sc.errLast = none) (hmi : sc.matchIdx = none)
    (hd : findIdxFrom Branch.isDefault 0 bs = none) :
    Resolver.resolve g cg fp (.mk ck (.branchesDef bs) st deps) =
      { res := .mk ck (.branchesDef (resetBranches bs))
          { isResolved := st.isResolved, resolvedValue := st.resolvedValue,
            resolutionError := none, isUsingCache := st.isUsingCache }
          sc.cd.resolverDeps,
        ctxPaths := sc.cd.ctxPaths,
        outcome := .error (.rerr .generic
          "no matching resolver branch found and no default" none),
        writes := [] } := by
  unfold Resolver.resolve
  simp only [hm, hs, he, hmi, hd]

theorem resolve_miss_branches_sel (g : Graph) (cg : String → Option ConfigValue)
    (fp : String) (ck : Option CacheKeyDef) (bs : List Branch) (st : RState)
    (deps : DepMap) (sc : ScanOut) (sel : Nat) (bs' : List Branch) (childOut : ResolveOut)
    (hm : cacheHitOf cg (cacheKeyOf ck fp) = none)
    (hs : condScan g { ctxPaths := [], resolverDeps := deps.dropResolution } none 0 bs = sc)
    (he : sc.errLast = none)
    (hsel : (match sc.matchIdx with
             | some i => some i
             | none => findIdxFrom Branch.isDefault 0 bs) = some sel)
    (hrb : resolveBranchList g cg fp sel 0 bs = (bs', some childOut)) :
    Resolver.resolve g cg fp (.mk ck (.branchesDef bs) st deps) =
      (match childOut.outcome with
       | .error e =>
         { res := .mk ck (.branchesDef bs')
             { isResolved := st.isResolved, resolvedValue := st.resolvedValue,
               resolutionError := none, isUsingCache := st.isUsingCache }
             sc.cd.resolverDeps,
           ctxPaths := sc.cd.ctxPaths, outcome := .error e,
           writes := childOut.writes }
       | .ok _ =>
         { res := .mk ck (.branchesDef bs')
             { isResolved := true, resolvedValue := childOut.res.st.resolvedValue,
               resolutionError := none, isUsingCache := st.isUsingCache }
             sc.cd.resolverDeps,
           ctxPaths := sc.cd.ctxPaths, outcome := .ok (),
           writes := childOut.writes ++
             (match cacheKeyOf ck fp, childOut.res.st.resolvedValue with
              | some k, some v => [(k, v)]
              | _, _ => []) }) := by
  unfold Resolver.resolve
  simp only [hm, hs, he, hsel, hrb]

mutual
/-- After a reset, no branch anywhere in the tree is active. -/
theorem reset_allInactive : ∀ (r : Resolver),
    allBranchesInactive r.resetResolutionState = true
  | .mk _ (.leafDef _) _ _ => rfl
  | .mk _ (.branchesDef bs) _ _ => by
    simp only [Resolver.resetResolutionState, RDef.reset, allBranchesInactive]
    exact resetBranches_allInactive bs
/-- Branch-list form of `reset_allInactive`. -/
theorem resetBranches_allInactive : ∀ (bs : List Branch),
    allInactiveBranchList (resetBranches bs) = true
  | [] => rfl
  | .mk _ _ _ _ _ r :: rest => by
    simp only [resetBranches, allInactiveBranchList, Bool.not_false, Bool.true_and]
    simp [reset_allInactive r, resetBranches_allInactive rest]
end

mutual
/-- After a reset, no `resolutionError` is stored anywhere in the tree. -/
theorem reset_noErr : ∀ (r : Resolver), noErrAnywhere r.resetResolutionState = true
  | .mk _ (.leafDef _) _ _ => rfl
  | .mk _ (.branchesDef bs) _ _ => by
    simp only [Resolver.resetResolutionState, RDef.reset, noErrAnywhere]
    simp [resetBranches_noErr bs]
/-- Branch-list form of `reset_noErr`. -/
theorem resetBranches_noErr : ∀ (bs : List Branch),
    noErrBranchList (resetBranches bs) = true
  | [] => rfl
  | .mk _ _ _ _ _ r :: rest => by
    simp only [resetBranches, noErrBranchList]
    simp [reset_noErr r, resetBranches_noErr rest]
end

/-- C2 counterexample: `resetResolutionState` does *not* clear the three
value-bearing attempt-scoped fields.  On a resolver whose previous attempt
left `isResolved = true`, `resolvedValue = 'v'` and `isUsingCache = true`,
the reset keeps all three (while it does clear `resolutionError`,
deactivate the branch and drop the `resolution`-kind entry), refuting the
claim that reset clears all four state fields. -/
theorem reset_keeps_value_state :
    staleResolver.resetResolutionState.st.isResolved = true
    ∧ staleResolver.resetResolutionState.st.resolvedValue = some (.vStr "v")
    ∧ staleResolver.resetResolutionState.st.isUsingCache = true
    ∧ staleResolver.resetResolutionState.st.resolutionError = none
    ∧ staleResolver.resetResolutionState.deps = [("root!P", .schema)]
    ∧ allBranchesInactive staleResolver.resetResolutionState = true :=
  ⟨rfl, rfl, rfl, rfl, rfl, rfl⟩

/-- C2 (amended): `resetResolutionState` — also step 1 of every `resolve`
call — clears `resolutionError`, drops the `resolution`-kind dependency
entries, and recursively deactivates all branches (resetting every branch
resolver recursively); the other three attempt-scoped fields `isResolved`,
`resolvedValue` and `isUsingCache` are left unchanged by the reset itself
(they are only overwritten later in the attempt). -/
theorem resetResolutionState_spec (r : Resolver) :
    r.resetResolutionState.st.resolutionError = none
    ∧ r.resetResolutionState.st.isResolved = r.st.isResolved
    ∧ r.resetResolutionState.st.resolvedValue = r.st.resolvedValue
    ∧ r.resetResolutionState.st.isUsingCache = r.st.isUsingCache
    ∧ r.resetResolutionState.deps = r.deps.dropResolution
    ∧ allBranchesInactive r.resetResolutionState = true
    ∧ noErrAnywhere r.resetResolutionState = true := by
  obtain ⟨ck, d, st, deps⟩ := r
  refine ⟨rfl, rfl, rfl, rfl, rfl, reset_allInactive _, reset_noErr _⟩

theorem get_unresolved (g : Graph) (cd : CtxDeps) (xPath : String) (nodeX : Node)
    (hfind : g.getConfigNodeByPath xPath = some nodeX)
    (hunres : nodeX.isResolved = false) :
    ResolverContext.get g cd xPath =
      ({ ctxPaths := insertCtxPath cd.ctxPaths nodeX.fullPath,
         resolverDeps := cd.resolverDeps.insertResolution nodeX.fullPath },
       .error (.rerr .depNotResolved
         ("Tried to access node that was not yet resolved - " ++ xPath) none)) := by
  have hpe : nodeX.path = xPath := by
    have h := hfind
    unfold Graph.getConfigNodeByPath at h
    have h2 := List.find?_some h
    simpa using h2
  unfold ResolverContext.get
  rw [hfind]
  simp [hpe, hunres]

theorem lookup_insertResolution_self (m : DepMap) (p : String)
    (h : m.lookup p = none) :
    (m.insertResolution p).lookup p = some .resolution := by
  unfold DepMap.insertResolution
  rw [h]
  rw [DepMap.lookup_append, h]
  simp [DepMap.lookup]

/-- C1: a leaf resolver whose evaluation function calls `ctx.get(X)` on a
node `X` of the entity that is not yet resolved completes its `resolve`
call normally (nothing escapes the boundary), stores the thrown
`DependencyNotResolvedResolutionError` unchanged as its `resolutionError`
(in particular the stored error is retryable), ends with
`isResolved = false`, and `X`'s full path is recorded in the resolver's
dependency map tagged `resolution`.  (Hypothesis `hdep`: the path was not
already present in the attempt's starting map — had it been pre-declared
as a `schema` dependency, the non-destructive merge of C5 would keep the
`schema` tag instead.) -/
theorem retryable_propagation (g : Graph) (cg : String → Option ConfigValue)
    (fp xPath : String) (ck : Option CacheKeyDef) (st : RState) (deps : DepMap)
    (k : Option ConfigValue → EvalFn) (nodeX : Node)
    (hmiss : cacheHitOf cg (cacheKeyOf ck fp) = none)
    (hfind : g.getConfigNodeByPath xPath = some nodeX)
    (hunres : nodeX.isResolved = false)
    (hdep : (deps.dropResolution).lookup nodeX.fullPath = none) :
    (Resolver.resolve g cg fp (.mk ck (.leafDef (.getThen xPath k)) st deps)).outcome
        = .ok ()
    ∧ (Resolver.resolve g cg fp
        (.mk ck (.leafDef (.getThen xPath k)) st deps)).res.st.isResolved = false
    ∧ (Resolver.resolve g cg fp
        (.mk ck (.leafDef (.getThen xPath k)) st deps)).res.st.resolutionError
        = some (.rerr .depNotResolved
            ("Tried to access node that was not yet resolved - " ++ xPath) none)
    ∧ (∀ e, (Resolver.resolve g cg fp
          (.mk ck (.leafDef (.getThen xPath k)) st deps)).res.st.resolutionError
          = some e → e.retryable = true)
    ∧ ((Resolver.resolve g cg fp
        (.mk ck (.leafDef (.getThen xPath k)) st deps)).res.deps).lookup nodeX.fullPath
        = some .resolution := by
  have hrun : runEval g { ctxPaths := [], resolverDeps := deps.dropResolution }
      (.getThen xPath k) =
      ({ ctxPaths := insertCtxPath [] nodeX.fullPath,
         resolverDeps := (deps.dropResolution).insertResolution nodeX.fullPath },
       .error (.rerr .depNotResolved
         ("Tried to access node that was not yet resolved - " ++ xPath) none)) := by
    unfold runEval
    rw [get_unresolved g _ xPath nodeX hfind hunres]
  have hres := resolve_miss_leaf_error g cg fp ck (.getThen xPath k) st deps
    _ _ hmiss hrun
  rw [hres]
  refine ⟨rfl, rfl, rfl, ?_, ?_⟩
  · intro e he
    simp only [Thrown.isResolutionError] at he
    simp only [if_pos] at he
    cases he
    rfl
  · exact lookup_insertResolution_self _ _ hdep

theorem resolve_miss_branches_selDead (g : Graph) (cg : String → Option ConfigValue)
    (fp : String) (ck : Option CacheKeyDef) (bs : List Branch) (st : RState)
    (deps : DepMap) (sc : ScanOut) (sel : Nat) (bs' : List Branch)
    (hm : cacheHitOf cg (cacheKeyOf ck fp) = none)
    (hs : condScan g { ctxPaths := [], resolverDeps := deps.dropResolution } none 0 bs = sc)
    (he : sc.errLast = none)
    (hsel : (match sc.matchIdx with
             | some i => some i
             | none => findIdxFrom Branch.isDefault 0 bs) = some sel)
    (hrb : resolveBranchList g cg fp sel 0 bs = (bs', none)) :
    Resolver.resolve g cg fp (.mk ck (.branchesDef bs) st deps) =
      { res := .mk ck (.branchesDef bs')
          { isResolved := st.isResolved, resolvedValue := st.resolvedValue,
            resolutionError := none, isUsingCache := st.isUsingCache }
          sc.cd.resolverDeps,
        ctxPaths := sc.cd.ctxPaths, outcome := .ok (), writes := [] } := by
  unfold Resolver.resolve
  simp only [hm, hs, he, hsel, hrb]

theorem resolve_preserves_schema (g : Graph) (cg : String → Option ConfigValue)
    (fp : String) (r : Resolver) (p : String)
    (h : r.deps.lookup p = some .schema) :
    ((Resolver.resolve g cg fp r).res.deps).lookup p = some .schema := by
  obtain ⟨ck, rdef, st, deps⟩ := r
  have h0 : (deps.dropResolution).lookup p = some .schema :=
    DepMap.dropResolution_preserves_schema _ _ (by simpa [Resolver.deps] using h)
  cases hh : cacheHitOf cg (cacheKeyOf ck fp) with
  | some v =>
    rw [resolve_hit g cg fp ck rdef st deps v hh]
    simpa [Resolver.deps] using h0
  | none =>
    cases rdef with
    | leafDef fn =>
      rcases hre : runEval g { ctxPaths := [], resolverDeps := deps.dropResolution } fn
        with ⟨cd1, res⟩
      have h1 : cd1.resolverDeps.lookup p = some .schema := by
        have hx := runEval_preserves_schema g fn
          { ctxPaths := [], resolverDeps := deps.dropResolution } p h0
        rw [hre] at hx
        exact hx
      cases res with
      | ok v =>
        rw [resolve_miss_leaf_ok g cg fp ck fn st deps cd1 v hh hre]
        simpa [Resolver.deps] using h1
      | error e =>
        rw [resolve_miss_leaf_error g cg fp ck fn st deps cd1 e hh hre]
        simpa [Resolver.deps] using h1
    | branchesDef bs =>
      rcases hs : condScan g { ctxPaths := [], resolverDeps := deps.dropResolution } none 0 bs
        with ⟨cd1, errLast, matchIdx⟩
      have h1 : cd1.resolverDeps.lookup p = some .schema := by
        have hx := condScan_preserves_schema g bs
          { ctxPaths := [], resolverDeps := deps.dropResolution } none 0 p h0
        rw [hs] at hx
        exact hx
      cases errLast with
      | some e =>
        rw [resolve_miss_branches_scanErr g cg fp ck bs st deps _ e hh hs rfl]
        simpa [Resolver.deps] using h1
      | none =>
        have hselCases : ∀ (sel : Nat),
            (match (ScanOut.mk cd1 none matchIdx).matchIdx with
             | some i => some i
             | none => findIdxFrom Branch.isDefault 0 bs) = some sel →
            ((Resolver.resolve g cg fp
                (.mk ck (.branchesDef bs) st deps)).res.deps).lookup p
              = some .schema := by
          intro sel hsel
          rcases hrb : resolveBranchList g cg fp sel 0 bs with ⟨bs', o⟩
          cases o with
          | none =>
            rw [resolve_miss_branches_selDead g cg fp ck bs st deps _ sel bs' hh hs rfl
              hsel hrb]
            simpa [Resolver.deps] using h1
          | some childOut =>
            rw [resolve_miss_branches_sel g cg fp ck bs st deps _ sel bs' childOut
              hh hs rfl hsel hrb]
            cases childOut.outcome <;> simpa [Resolver.deps] using h1
        cases matchIdx with
        | some i => exact hselCases i rfl
        | none =>
          cases hd : findIdxFrom Branch.isDefault 0 bs with
          | none =>
            rw [resolve_miss_branches_noSel g cg fp ck bs st deps _ hh hs rfl rfl hd]
            simpa [Resolver.deps] using h1
          | some sel => exact hselCases sel hd

/-- C5: invariants of the dependency map. (1) A `schema`-tagged entry is
never downgraded or removed by a later `get` discovery of the same path
(the `||=` merge is non-destructive); (2) `resetResolutionState` keeps
every `schema` entry; (3) after a reset no `resolution` entry remains; and
(4) a whole `resolve` attempt (which starts with the reset and only ever
adds entries through `get`) also preserves every `schema` entry. -/
theorem dependency_map_invariant :
    (∀ (g : Graph) (cd : CtxDeps) (x p : String),
       cd.resolverDeps.lookup p = some .schema →
       ((ResolverContext.get g cd x).1.resolverDeps).lookup p = some .schema)
    ∧ (∀ (r : Resolver) (p : String),
       r.deps.lookup p = some .schema →
       (r.resetResolutionState.deps).lookup p = some .schema)
    ∧ (∀ (r : Resolver) (p : String),
       (r.resetResolutionState.deps).lookup p ≠ some .resolution)
    ∧ (∀ (g : Graph) (cg : String → Option ConfigValue) (fp : String)
        (r : Resolver) (p : String),
       r.deps.lookup p = some .schema →
       ((Resolver.resolve g cg fp r).res.deps).lookup p = some .schema) := by
  refine ⟨get_preserves_schema, ?_, ?_, resolve_preserves_schema⟩
  · intro r p h
    obtain ⟨ck, d, st, deps⟩ := r
    exact DepMap.dropResolution_preserves_schema deps p h
  · intro r p
    obtain ⟨ck, d, st, deps⟩ := r
    exact DepMap.dropResolution_no_resolution deps p

/-- Witness for C5 at concrete inputs: a map holding `root!P` as `schema`
keeps it as `schema` across a `get`, across a reset (which also drops the
`resolution` entry for `root!Q`), and across a full `resolve` attempt. -/
theorem dependency_map_invariant_witness :
    ((ResolverContext.get gX { ctxPaths := [], resolverDeps := [("root!P", .schema)] }
        "X").1.resolverDeps).lookup "root!P" = some .schema
    ∧ (staleResolver.resetResolutionState.deps).lookup "root!P" = some .schema
    ∧ (staleResolver.resetResolutionState.deps).lookup "root!Q" ≠ some .resolution
    ∧ ((Resolver.resolve gX ResolverContext.getCacheItem "root!N"
         (.mk none (.leafDef (.getThen "X" (fun v => .ret v))) initRState
           [("root!P", .schema)])).res.deps).lookup "root!P" = some .schema :=
  ⟨dependency_map_invariant.1 gX
      { ctxPaths := [], resolverDeps := [("root!P", .schema)] } "X" "root!P" rfl,
   dependency_map_invariant.2.1 staleResolver "root!P" rfl,
   dependency_map_invariant.2.2.1 staleResolver "root!Q",
   dependency_map_invariant.2.2.2 gX ResolverContext.getCacheItem "root!N"
     (.mk none (.leafDef (.getThen "X" (fun v => .ret v))) initRState
       [("root!P", .schema)]) "root!P" rfl⟩

/-- Witness for C1: the concrete leaf `leafGetX` reading the unresolved
node `X` of `gX`. -/
theorem retryable_propagation_witness :
    (Resolver.resolve gX ResolverContext.getCacheItem "root!N" leafGetX).outcome = .ok ()
    ∧ (Resolver.resolve gX ResolverContext.getCacheItem "root!N" leafGetX).res.st.isResolved
        = false
    ∧ ((Resolver.resolve gX ResolverContext.getCacheItem "root!N" leafGetX).res.deps).lookup
        "root!X" = some .resolution := by
  have h := retryable_propagation gX ResolverContext.getCacheItem "root!N" "X" none
    initRState [] (fun v => EvalFn.ret v) xNode rfl rfl rfl rfl
  exact ⟨h.1, h.2.1, h.2.2.2.2⟩

/-- C7: whenever the cache query for the attempt's computed key returns a
value other than `undefined`, `resolve` ends the attempt right there: the
resolver's state becomes exactly resolved-from-cache (`resolvedValue` = the
cached value, `isResolved = true`, `isUsingCache = true`, no error), no
dependency is recorded, nothing is thrown, and no cache write happens; the
result does not depend on the evaluation function or on any branch
condition (the definition part appears only under the evaluation-free
`RDef.reset`). -/
theorem cache_short_circuit (g : Graph) (cg : String → Option ConfigValue)
    (fp : String) (ck : Option CacheKeyDef) (rdef : RDef) (st : RState)
    (deps : DepMap) (k : String) (v : ConfigValue)
    (hk : cacheKeyOf ck fp = some k) (hv : cg k = some v) :
    Resolver.resolve g cg fp (.mk ck rdef st deps) =
      { res := .mk ck (RDef.reset rdef)
          { isResolved := true, resolvedValue := some v,
            resolutionError := none, isUsingCache := true }
          deps.dropResolution,
        ctxPaths := [], outcome := .ok (), writes := [] } := by
  apply resolve_hit
  rw [hk]
  exact hv

theorem cache_short_circuit_witness :
    Resolver.resolve gX hitCache "root!N"
      (.mk (some (.ckStatic "K")) (.leafDef (.thrw (.plainErr "boom"))) initRState [])
      = { res := .mk (some (.ckStatic "K")) (.leafDef (.thrw (.plainErr "boom")))
            { isResolved := true, resolvedValue := some (.vStr "cached"),
              resolutionError := none, isUsingCache := true } [],
          ctxPaths := [], outcome := .ok (), writes := [] } :=
  cache_short_circuit gX hitCache "root!N" (some (.ckStatic "K"))
    (.leafDef (.thrw (.plainErr "boom"))) initRState [] "K" (.vStr "cached") rfl rfl

theorem cacheHitOf_builtin (key : Option String) :
    cacheHitOf ResolverContext.getCacheItem key = none := by
  cases key <;> rfl

mutual
/-- Resetting never changes any `isUsingCache` flag in the tree. -/
theorem reset_notUsingCache : ∀ (r : Resolver),
    notUsingCacheAnywhere r.resetResolutionState = notUsingCacheAnywhere r
  | .mk _ (.leafDef _) _ _ => rfl
  | .mk _ (.branchesDef bs) _ _ => by
    simp only [Resolver.resetResolutionState, RDef.reset, notUsingCacheAnywhere]
    rw [resetBranches_notUsingCache bs]
/-- Branch-list form of `reset_notUsingCache`. -/
theorem resetBranches_notUsingCache : ∀ (bs : List Branch),
    notUsingCacheBranchList (resetBranches bs) = notUsingCacheBranchList bs
  | [] => rfl
  | .mk _ _ _ _ _ r :: rest => by
    simp only [resetBranches, notUsingCacheBranchList]
    rw [reset_notUsingCache r, resetBranches_notUsingCache rest]
end

mutual
/-- Driving `resolve` through the built-in context cache (always-miss
`getCacheItem`) never sets an `isUsingCache` flag anywhere in the tree. -/
theorem resolve_builtin_notUsingCache (g : Graph) (fp : String) :
    ∀ (r : Resolver), notUsingCacheAnywhere r = true →
      notUsingCacheAnywhere
        (Resolver.resolve g ResolverContext.getCacheItem fp r).res = true
  | .mk ck rdef st deps, h => by
    have hm : cacheHitOf ResolverContext.getCacheItem (cacheKeyOf ck fp) = none :=
      cacheHitOf_builtin _
    match rdef, h with
    | .leafDef fn, h =>
      rcases hre : runEval g { ctxPaths := [], resolverDeps := deps.dropResolution } fn
        with ⟨cd1, res⟩
      have htop : st.isUsingCache = false := by
        simp only [notUsingCacheAnywhere, Bool.and_eq_true] at h
        simpa using h.1
      cases res with
      | ok v =>
        rw [resolve_miss_leaf_ok g ResolverContext.getCacheItem fp ck fn st deps cd1 v hm hre]
        simp [notUsingCacheAnywhere, htop]
      | error e =>
        rw [resolve_miss_leaf_error g ResolverContext.getCacheItem fp ck fn st deps cd1 e hm hre]
        simp [notUsingCacheAnywhere, htop]
    | .branchesDef bs, h =>
      have htop : st.isUsingCache = false := by
        simp only [notUsingCacheAnywhere, Bool.and_eq_true] at h
        simpa using h.1
      have hbs : notUsingCacheBranchList bs = true := by
        simp only [notUsingCacheAnywhere, Bool.and_eq_true] at h
        exact h.2
      rcases hs : condScan g { ctxPaths := [], resolverDeps := deps.dropResolution } none 0 bs
        with ⟨cd1, errLast, matchIdx⟩
      cases errLast with
      | some e =>
        rw [resolve_miss_branches_scanErr g ResolverContext.getCacheItem fp ck bs st deps
          _ e hm hs rfl]
        simp [notUsingCacheAnywhere, htop, resetBranches_notUsingCache bs, hbs]
      | none =>
        have hselCases : ∀ (sel : Nat),
            (match (ScanOut.mk cd1 none matchIdx).matchIdx with
             | some i => some i
             | none => findIdxFrom Branch.isDefault 0 bs) = some sel →
            notUsingCacheAnywhere
              (Resolver.resolve g ResolverContext.getCacheItem fp
                (.mk ck (.branchesDef bs) st deps)).res = true := by
          intro sel hsel
          rcases hrb : resolveBranchList g ResolverContext.getCacheItem fp sel 0 bs
            with ⟨bs', o⟩
          have hbs' : notUsingCacheBranchList bs' = true := by
            have hx := resolveBranchList_builtin_notUsingCache g fp sel 0 bs hbs
            rw [hrb] at hx
            exact hx
          cases o with
          | none =>
            rw [resolve_miss_branches_selDead g ResolverContext.getCacheItem fp ck bs st
              deps _ sel bs' hm hs rfl hsel hrb]
            simp [notUsingCacheAnywhere, htop, hbs']
          | some childOut =>
            rw [resolve_miss_branches_sel g ResolverContext.getCacheItem fp ck bs st deps
              _ sel bs' childOut hm hs rfl hsel hrb]
            cases childOut.outcome <;> simp [notUsingCacheAnywhere, htop, hbs']
        cases matchIdx with
        | some i => exact hselCases i rfl
        | none =>
          cases hd : findIdxFrom Branch.isDefault 0 bs with
          | none =>
            rw [resolve_miss_branches_noSel g ResolverContext.getCacheItem fp ck bs st deps
              _ hm hs rfl rfl hd]
            simp [notUsingCacheAnywhere, htop, resetBranches_notUsingCache bs, hbs]
          | some sel => exact hselCases sel hd
/-- Branch-list form of `resolve_builtin_notUsingCache`. -/
theorem resolveBranchList_builtin_notUsingCache (g : Graph) (fp : String) (sel : Nat) :
    ∀ (i : Nat) (bs : List Branch), notUsingCacheBranchList bs = true →
      notUsingCacheBranchList
        (resolveBranchList g ResolverContext.getCacheItem fp sel i bs).1 = true
  | _, [], _ => rfl
  | i, .mk bid lbl dflt c a child :: rest, h => by
    have hchild : notUsingCacheAnywhere child = true := by
      simp only [notUsingCacheBranchList, Bool.and_eq_true] at h
      exact h.1
    have hrest : notUsingCacheBranchList rest = true := by
      simp only [notUsingCacheBranchList, Bool.and_eq_true] at h
      exact h.2
    unfold resolveBranchList
    split
    · simp only [notUsingCacheBranchList, Bool.and_eq_true]
      exact ⟨resolve_builtin_notUsingCache g _ child hchild,
        resolveBranchList_builtin_notUsingCache g fp sel (i+1) rest hrest⟩
    · simp only [notUsingCacheBranchList, Bool.and_eq_true]
      refine ⟨?_, resolveBranchList_builtin_notUsingCache g fp sel (i+1) rest hrest⟩
      rw [reset_notUsingCache child]
      exact hchild
end

/-- C10: the built-in `ResolverContext` has a no-op cache: `getCacheItem`
answers `undefined` for every key, `setCacheItem` writes nothing for every
key/value, hence the cache query of any `resolve` attempt (whatever the
`cacheKey`, including the full-path-derived keys of `cacheFunctionResult`)
misses, the hit short-circuit is never taken, and no `isUsingCache` flag
ever becomes `true` anywhere in the resolver tree. -/
theorem builtin_context_no_cache :
    (∀ key, ResolverContext.getCacheItem key = none)
    ∧ (∀ key v store, ResolverContext.setCacheItem key v store = store)
    ∧ (∀ key, cacheHitOf ResolverContext.getCacheItem key = none)
    ∧ (∀ (g : Graph) (fp : String) (r : Resolver),
       notUsingCacheAnywhere r = true →
       notUsingCacheAnywhere
         (Resolver.resolve g ResolverContext.getCacheItem fp r).res = true) :=
  ⟨fun _ => rfl, fun _ _ _ => rfl, cacheHitOf_builtin,
   fun g fp r h => resolve_builtin_notUsingCache g fp r h⟩

/-- Witness for C10 on a `cacheFunctionResult` resolver (full-path-derived
cache key). -/
theorem builtin_context_no_cache_witness :
    ResolverContext.getCacheItem "K" = none
    ∧ ResolverContext.setCacheItem "K" (.vStr "v") [] = []
    ∧ notUsingCacheAnywhere
        (Resolver.resolve gX ResolverContext.getCacheItem "root!N"
          (cacheFunctionResult none (.ret (some (.vStr "generated"))))).res = true :=
  ⟨builtin_context_no_cache.1 "K",
   builtin_context_no_cache.2.1 "K" (.vStr "v") [],
   builtin_context_no_cache.2.2.2 gX "root!N"
     (cacheFunctionResult none (.ret (some (.vStr "generated")))) rfl⟩

theorem countActive_of_allInactive : ∀ (bs : List Branch),
    allInactiveBranchList bs = true → countActive bs = 0
  | [], _ => rfl
  | .mk _ _ _ _ a r :: rest, h => by
    simp only [allInactiveBranchList, Bool.and_eq_true] at h
    obtain ⟨⟨ha, _⟩, hrest⟩ := h
    have ha' : a = false := by simpa using ha
    simp only [countActive, List.filter_cons, ha', Branch.isActive]
    exact countActive_of_allInactive rest hrest

theorem condScan_errLast_shape (g : Graph) : ∀ (bs : List Branch) (cd : CtxDeps)
    (err0 : Option Thrown) (i : Nat) (e : Thrown),
    (condScan g cd err0 i bs).errLast = some e →
    err0 = some e ∨ ∃ b ∈ bs, ∃ c, e = .rerr .generic
      ("Error in resolver branch condition (" ++ b.label ++ ")") (some c) := by
  intro bs
  induction bs with
  | nil => intro cd err0 i e h; exact Or.inl h
  | cons b rest ih =>
    intro cd err0 i e h
    unfold condScan at h
    split at h
    · rcases ih _ _ _ _ h with h0 | ⟨b', hb', c, hc⟩
      · exact Or.inl h0
      · exact Or.inr ⟨b', List.mem_cons_of_mem b hb', c, hc⟩
    · split at h
      · exact Or.inl h
      · rcases ih _ _ _ _ h with h0 | ⟨b', hb', c, hc⟩
        · exact Or.inl h0
        · exact Or.inr ⟨b', List.mem_cons_of_mem b hb', c, hc⟩
      · rcases ih _ _ _ _ h with h0 | ⟨b', hb', c, hc⟩
        · rename_i c0 _
          injection h0 with h0e
          exact Or.inr ⟨b, List.mem_cons_self b rest, _, h0e.symm⟩
        · exact Or.inr ⟨b', List.mem_cons_of_mem b hb', c, hc⟩

/-- C3 counterexample: in `throwingBranchSet` the first branch's condition
throws, yet the second branch's condition *is* still evaluated — its
`ctx.get('DEP')` side effect lands in the dependency map — refuting "no
further branches' conditions are evaluated after the one that threw".
(The attempt does abort with the wrapper error naming the throwing branch,
with no branch activated, as the rest of the claim states.) -/
theorem branch_condition_throw_counterexample :
    ((throwingBranchSet.resolve gDep ResolverContext.getCacheItem "root!N").res.deps).lookup
        "root!DEP" = some .resolution
    ∧ (throwingBranchSet.resolve gDep ResolverContext.getCacheItem "root!N").res.st.resolutionError
        = some (.rerr .generic "Error in resolver branch condition (first)"
            (some (.plainErr "boom")))
    ∧ (throwingBranchSet.resolve gDep ResolverContext.getCacheItem "root!N").res.st.isResolved
        = false
    ∧ countActive (throwingBranchSet.resolve gDep ResolverContext.getCacheItem "root!N").res.branches
        = 0 :=
  ⟨rfl, rfl, rfl, rfl⟩

/-- C3 (amended): if some non-default branch's condition throws during the
scan, the whole attempt aborts with a resolution error naming the (last)
offending branch and wrapping the underlying cause, `isResolved` is
`false`, no branch is activated (no default fallback, nothing thrown
across the boundary, no cache write); however, the conditions of branches
after a throwing one may still be evaluated during the scan (until one
returns `true`), their results being discarded. -/
theorem branch_condition_throw (g : Graph) (cg : String → Option ConfigValue)
    (fp : String) (ck : Option CacheKeyDef) (bs : List Branch) (st : RState)
    (deps : DepMap) (e : Thrown)
    (hm : cacheHitOf cg (cacheKeyOf ck fp) = none)
    (he : (condScan g { ctxPaths := [], resolverDeps := deps.dropResolution }
            none 0 bs).errLast = some e) :
    (Resolver.resolve g cg fp (.mk ck (.branchesDef bs) st deps)).outcome = .ok ()
    ∧ (Resolver.resolve g cg fp (.mk ck (.branchesDef bs) st deps)).res.st.resolutionError
        = some e
    ∧ (Resolver.resolve g cg fp (.mk ck (.branchesDef bs) st deps)).res.st.isResolved
        = false
    ∧ countActive (Resolver.resolve g cg fp (.mk ck (.branchesDef bs) st deps)).res.branches
        = 0
    ∧ (∃ b ∈ bs, ∃ c, e = .rerr .generic
        ("Error in resolver branch condition (" ++ b.label ++ ")") (some c))
    ∧ (Resolver.resolve g cg fp (.mk ck (.branchesDef bs) st deps)).writes = [] := by
  have hres := resolve_miss_branches_scanErr g cg fp ck bs st deps
    (condScan g { ctxPaths := [], resolverDeps := deps.dropResolution } none 0 bs)
    e hm rfl he
  rw [hres]
  have hshape := condScan_errLast_shape g bs
    { ctxPaths := [], resolverDeps := deps.dropResolution } none 0 e he
  rcases hshape with h0 | hok
  · cases h0
  · exact ⟨rfl, rfl, rfl,
      (by
        simp only [Resolver.branches, Resolver.rdef]
        exact countActive_of_allInactive _ (resetBranches_allInactive bs)),
      hok, rfl⟩

/-- Witness for C3 (amended) on the concrete `throwingBranchSet`. -/
theorem branch_condition_throw_witness :
    (throwingBranchSet.resolve gDep ResolverContext.getCacheItem "root!N").outcome = .ok ()
    ∧ (∃ b ∈ throwingBranchSet.branches, ∃ c,
        (.rerr .generic "Error in resolver branch condition (first)"
            (some (.plainErr "boom")) : Thrown)
          = .rerr .generic ("Error in resolver branch condition (" ++ b.label ++ ")")
              (some c)) := by
  have h := branch_condition_throw gDep ResolverContext.getCacheItem "root!N" none
    (throwingBranchSet.branches)
    { isResolved := false, resolvedValue := none,
      resolutionError := none, isUsingCache := false } []
    (.rerr .generic "Error in resolver branch condition (first)" (some (.plainErr "boom")))
    rfl rfl
  exact ⟨h.1, h.2.2.2.2.1⟩

/-- C8: end-to-end `switchBy` over branches
`{prod: 'A', dev: 'B', _default: 'C'}`.  With the discriminant node `ENV`
resolved and valid with value `"prod"`, resolution selects the branch whose
case key strictly equals the discriminant value and yields `'A'`; with
value `"staging"` (no matching case key) it yields `'C'` through the
`'_default'` branch, which is marked `isDefault`. -/
theorem switchBy_end_to_end :
    (swResolver.resolve gProd ResolverContext.getCacheItem "root!SVC").res.st.resolvedValue
        = some (.vStr "A")
    ∧ (swResolver.resolve gProd ResolverContext.getCacheItem "root!SVC").res.st.isResolved
        = true
    ∧ (((swResolver.resolve gProd ResolverContext.getCacheItem "root!SVC").res.branches.find?
          Branch.isActive).map Branch.id) = some "prod"
    ∧ (swResolver.resolve gStaging ResolverContext.getCacheItem "root!SVC").res.st.resolvedValue
        = some (.vStr "C")
    ∧ (swResolver.resolve gStaging ResolverContext.getCacheItem "root!SVC").res.st.isResolved
        = true
    ∧ (((swResolver.resolve gStaging ResolverContext.getCacheItem "root!SVC").res.branches.find?
          Branch.isActive).map Branch.id) = some "_default"
    ∧ (((swResolver.resolve gStaging ResolverContext.getCacheItem "root!SVC").res.branches.find?
          Branch.isActive).map Branch.isDefault) = some true :=
  ⟨rfl, rfl, rfl, rfl, rfl, rfl, rfl⟩

/-- C9 counterexample: `getDeclaredDependencyValues` does *not* apply the
same checks or raise the same errors as `get`.  (i) On the
resolved-but-invalid node `IV`, `get` throws the
`DependencyInvalidResolutionError` class, while
`getDeclaredDependencyValues` throws a plain generic `ResolutionError`
(kind `generic`, not `depInvalid`).  (ii) On node `HF` with
`isResolved = true` but `isFullyResolved = false`, `get` succeeds, while
`getDeclaredDependencyValues` fails with the retryable not-resolved error —
its check is `isFullyResolved`, not `get`'s `isResolved`. -/
theorem getDeclaredDependencyValues_counterexample :
    (ResolverContext.get gMixed { ctxPaths := [], resolverDeps := [] } "IV").2
        = .error (.rerr .depInvalid "Resolver tried to use node that is invalid - IV" none)
    ∧ getDeclaredDependencyValues gMixed [("root!IV", .schema)]
        = .error (.rerr .generic "declared dependency is resolved but not valid" none)
    ∧ (ResolverContext.get gMixed { ctxPaths := [], resolverDeps := [] } "HF").2
        = .ok (some (.vStr "half"))
    ∧ getDeclaredDependencyValues gMixed [("root!HF", .resolution)]
        = .error (.rerr .depNotResolved "dependency not resolved yet" none) :=
  ⟨rfl, rfl, rfl, rfl⟩

theorem gddv_ok_of_passes (g : Graph) : ∀ (deps : DepMap),
    (∀ e ∈ deps, depEntryPasses g e.1 = true) →
    getDeclaredDependencyValues g deps
      = .ok (deps.map (fun e => (e.1, valueAt g e.1))) := by
  intro deps
  induction deps with
  | nil => intro _; rfl
  | cons e rest ih =>
    intro h
    have hhead := h e (List.mem_cons_self e rest)
    have hrest := fun x hx => h x (List.mem_cons_of_mem e hx)
    unfold depEntryPasses at hhead
    unfold getDeclaredDependencyValues
    cases hfind : g.getItemByPath e.1 with
    | none => rw [hfind] at hhead; cases hhead
    | some n =>
      rw [hfind] at hhead
      simp only [Bool.and_eq_true] at hhead
      simp only [hhead.1, hhead.2, Bool.not_true, Bool.false_eq_true, if_neg,
        not_false_iff, ih hrest, List.map_cons]
      simp [valueAt, hfind]

theorem gddv_passes_of_ok (g : Graph) : ∀ (deps : DepMap)
    (xs : List (String × Option ConfigValue)),
    getDeclaredDependencyValues g deps = .ok xs →
    ∀ e ∈ deps, depEntryPasses g e.1 = true := by
  intro deps
  induction deps with
  | nil => intro xs _ e he; cases he
  | cons ent rest ih =>
    intro xs hok x hx
    unfold getDeclaredDependencyValues at hok
    cases hfind : g.getItemByPath ent.1 with
    | none => rw [hfind] at hok; cases hok
    | some n =>
      rw [hfind] at hok
      dsimp only at hok
      cases hfr : n.isFullyResolved with
      | false => rw [hfr] at hok; simp at hok
      | true =>
        rw [hfr] at hok
        cases hvv : n.isValid with
        | false => rw [hvv] at hok; simp at hok
        | true =>
          rw [hvv] at hok
          simp only [Bool.not_true, Bool.false_eq_true, if_neg, not_false_iff] at hok
          rcases List.mem_cons.mp hx with hhead | htail
          · subst hhead
            unfold depEntryPasses
            rw [hfind]
            dsimp only
            rw [hfr, hvv]
            rfl
          · rcases hrec : getDeclaredDependencyValues g rest with err | xs'
            · rw [hrec] at hok
              dsimp only at hok
              cases hok
            · exact ih xs' hrec x htail

theorem gddv_error_shape (g : Graph) : ∀ (deps : DepMap) (e : Thrown),
    getDeclaredDependencyValues g deps = .error e →
    (e = .rerr .depNotResolved "dependency not resolved yet" none ∧ e.retryable = true)
    ∨ (e = .rerr .generic "declared dependency is resolved but not valid" none
        ∧ e.retryable = false)
    ∨ (∃ p, e = .rerr .generic ("Invalid declared dependency path - " ++ p) none
        ∧ e.retryable = false) := by
  intro deps
  induction deps with
  | nil => intro e h; cases h
  | cons ent rest ih =>
    intro e h
    unfold getDeclaredDependencyValues at h
    cases hfind : g.getItemByPath ent.1 with
    | none =>
      rw [hfind] at h
      injection h with he
      refine Or.inr (Or.inr ⟨ent.1, he.symm, ?_⟩)
      rw [← he]
      rfl
    | some n =>
      rw [hfind] at h
      dsimp only at h
      cases hfr : n.isFullyResolved with
      | false =>
        rw [hfr] at h
        simp only [Bool.not_false, if_pos] at h
        injection h with he
        refine Or.inl ⟨he.symm, ?_⟩
        rw [← he]
        rfl
      | true =>
        rw [hfr] at h
        cases hvv : n.isValid with
        | false =>
          rw [hvv] at h
          simp only [Bool.not_true, Bool.false_eq_true, if_neg, not_false_iff,
            Bool.not_false, if_pos] at h
          injection h with he
          refine Or.inr (Or.inl ⟨he.symm, ?_⟩)
          rw [← he]
          rfl
        | true =>
          rw [hvv] at h
          simp only [Bool.not_true, Bool.false_eq_true, if_neg, not_false_iff] at h
          rcases hrec : getDeclaredDependencyValues g rest with err | xs'
          · rw [hrec] at h
            dsimp only at h
            injection h with he
            subst he
            exact ih err hrec
          · rw [hrec] at h
            dsimp only at h
            cases h

/-- C9 (amended): `getDeclaredDependencyValues` checks every path of the
bound resolver's dependency map (both `schema` and `resolution` kinds)
against the graph root: it succeeds — returning the mapping from each path
to its node's resolved value — exactly when every entry's node exists, is
*fully* resolved and is valid; an unresolved (not fully resolved) entry
fails with the retryable not-resolved error, while a resolved-but-invalid
entry fails with a *generic* non-retryable resolution error (not the
`DependencyInvalidResolutionError` class that `get` uses), and a missing
path fails with a generic non-retryable error naming the path. -/
theorem getDeclaredDependencyValues_spec (g : Graph) (deps : DepMap) :
    ((∀ e ∈ deps, depEntryPasses g e.1 = true) →
      getDeclaredDependencyValues g deps
        = .ok (deps.map (fun e => (e.1, valueAt g e.1))))
    ∧ ((∃ xs, getDeclaredDependencyValues g deps = .ok xs) ↔
        ∀ e ∈ deps, depEntryPasses g e.1 = true)
    ∧ (∀ e, getDeclaredDependencyValues g deps = .error e →
        (e = .rerr .depNotResolved "dependency not resolved yet" none ∧ e.retryable = true)
        ∨ (e = .rerr .generic "declared dependency is resolved but not valid" none
            ∧ e.retryable = false)
        ∨ (∃ p, e = .rerr .generic ("Invalid declared dependency path - " ++ p) none
            ∧ e.retryable = false)) := by
  refine ⟨gddv_ok_of_passes g deps, ⟨?_, ?_⟩, gddv_error_shape g deps⟩
  · rintro ⟨xs, hxs⟩
    exact gddv_passes_of_ok g deps xs hxs
  · intro h
    exact ⟨_, gddv_ok_of_passes g deps h⟩

/-- Witness for C9 (amended) on concrete nodes of `gMixed`: a passing map
resolves to its value mapping, and the error classification holds on the
not-fully-resolved entry `root!HF`. -/
theorem getDeclaredDependencyValues_spec_witness :
    getDeclaredDependencyValues gMixed [("root!OK", .schema), ("root!OK", .resolution)]
      = .ok [("root!OK", some (.vStr "fine")), ("root!OK", some (.vStr "fine"))]
    ∧ (((.rerr .depNotResolved "dependency not resolved yet" none : Thrown)
          = .rerr .depNotResolved "dependency not resolved yet" none
        ∧ (.rerr .depNotResolved "dependency not resolved yet" none : Thrown).retryable = true)
       ∨ ((.rerr .depNotResolved "dependency not resolved yet" none : Thrown)
            = .rerr .generic "declared dependency is resolved but not valid" none
          ∧ (.rerr .depNotResolved "dependency not resolved yet" none : Thrown).retryable = false)
       ∨ (∃ p, (.rerr .depNotResolved "dependency not resolved yet" none : Thrown)
            = .rerr .generic ("Invalid declared dependency path - " ++ p) none
          ∧ (.rerr .depNotResolved "dependency not resolved yet" none : Thrown).retryable = false)) := by
  constructor
  · exact (getDeclaredDependencyValues_spec gMixed
      [("root!OK", .schema), ("root!OK", .resolution)]).1 (by decide)
  · exact (getDeclaredDependencyValues_spec gMixed [("root!HF", .schema)]).2.2
      (.rerr .depNotResolved "dependency not resolved yet" none) rfl

theorem countActive_cons (b : Branch) (rest : List Branch) :
    countActive (b :: rest) = (if b.isActive then 1 else 0) + countActive rest := by
  by_cases h : b.isActive = true
  · simp [countActive, List.filter_cons, h, Nat.add_comm]
  · simp only [Bool.not_eq_true] at h
    simp [countActive, List.filter_cons, h]


theorem orElseO_none (y : Option Thrown) : orElseO none y = y := rfl

theorem orElseO_some (e : Thrown) (y : Option Thrown) :
    orElseO (some e) y = some e := rfl

theorem orElseO_isNone (x y : Option Thrown) :
    (orElseO x y).isNone = (x.isNone && y.isNone) := by
  cases x <;> rfl

mutual
/-- An error-free subtree reports no `selfOrChildResolutionError`. -/
theorem noErr_selfOrChild : ∀ (r : Resolver),
    noErrAnywhere r = true → selfOrChildResolutionError r = none
  | .mk ck (.leafDef fn) st deps, h => by
    simp only [noErrAnywhere, Bool.and_eq_true] at h
    simp only [selfOrChildResolutionError]
    exact Option.isNone_iff_eq_none.mp h.1
  | .mk ck (.branchesDef bs) st deps, h => by
    simp only [noErrAnywhere, Bool.and_eq_true] at h
    simp only [selfOrChildResolutionError]
    rw [Option.isNone_iff_eq_none.mp h.1, noErr_firstBranch bs h.2]
    rfl
/-- Branch-list form of `noErr_selfOrChild`. -/
theorem noErr_firstBranch : ∀ (bs : List Branch),
    noErrBranchList bs = true → firstBranchResolutionError bs = none
  | [], _ => rfl
  | .mk i l dflt c a r :: rest, h => by
    simp only [noErrBranchList, Bool.and_eq_true] at h
    simp only [firstBranchResolutionError]
    rw [noErr_selfOrChild r h.1, noErr_firstBranch rest h.2]
    rfl
end

theorem allFalse_of_countActive_zero : ∀ (bs : List Branch),
    countActive bs = 0 → ∀ b ∈ bs, b.isActive = false := by
  intro bs
  induction bs with
  | nil => intro _ b hb; cases hb
  | cons b rest ih =>
    intro h x hx
    rw [countActive_cons] at h
    by_cases hb : b.isActive = true
    · rw [hb] at h; simp at h
    · simp only [Bool.not_eq_true] at hb
      rw [hb] at h
      simp only [Bool.false_eq_true, if_neg, not_false_iff, Nat.zero_add] at h
      rcases List.mem_cons.mp hx with h1 | h2
      · subst h1; exact hb
      · exact ih h x h2

theorem noErrBranchList_of_clean_inactive : ∀ (bs : List Branch),
    offChainCleanBranchList bs = true → countActive bs = 0 →
    noErrBranchList bs = true := by
  intro bs
  induction bs with
  | nil => intro _ _; rfl
  | cons b rest ih =>
    intro hc h0
    have hb : b.isActive = false :=
      allFalse_of_countActive_zero (b :: rest) h0 b (List.mem_cons_self b rest)
    rw [countActive_cons, hb] at h0
    simp only [Bool.false_eq_true, if_neg, not_false_iff, Nat.zero_add] at h0
    rcases b with ⟨i, l, dflt, c, a, r⟩
    simp only [Branch.isActive] at hb
    subst hb
    simp only [offChainCleanBranchList, Bool.and_eq_true, Bool.false_eq_true, if_neg,
      not_false_iff] at hc
    simp only [noErrBranchList, Bool.and_eq_true]
    exact ⟨hc.1, ih hc.2 h0⟩

theorem orElseO_none_right (x : Option Thrown) : orElseO x none = x := by
  cases x <;> rfl

mutual
/-- On trees satisfying `offChainClean`, the code's all-branches error walk
agrees with the spec's active-chain error walk. -/
theorem clean_selfOrChild : ∀ (r : Resolver), offChainClean r = true →
    selfOrChildResolutionError r
      = orElseO r.st.resolutionError (activeChainError r)
  | .mk ck (.leafDef fn) st deps, _ => by
    simp only [selfOrChildResolutionError, activeChainError, Resolver.st]
    rw [orElseO_none_right]
  | .mk ck (.branchesDef bs) st deps, h => by
    simp only [offChainClean, Bool.and_eq_true, decide_eq_true_eq] at h
    simp only [selfOrChildResolutionError, activeChainError, Resolver.st]
    rw [clean_firstBranch bs h.2 h.1]
/-- Branch-list form of `clean_selfOrChild`. -/
theorem clean_firstBranch : ∀ (bs : List Branch), offChainCleanBranchList bs = true →
    countActive bs ≤ 1 →
    firstBranchResolutionError bs = activeChainErrorBranchList bs
  | [], _, _ => rfl
  | .mk i l dflt c a r :: rest, hc, hcount => by
    simp only [offChainCleanBranchList, Bool.and_eq_true] at hc
    simp only [firstBranchResolutionError, activeChainErrorBranchList]
    cases a with
    | true =>
      have hcr : offChainClean r = true := by simpa using hc.1
      have hrest0 : countActive rest = 0 := by
        rw [countActive_cons] at hcount
        simp only [Branch.isActive, if_pos] at hcount
        omega
      have hrestNone : firstBranchResolutionError rest = none :=
        noErr_firstBranch rest (noErrBranchList_of_clean_inactive rest hc.2 hrest0)
      rw [clean_selfOrChild r hcr, hrestNone, orElseO_none_right]
      simp
    | false =>
      have hnr : noErrAnywhere r = true := by simpa using hc.1
      have hrest1 : countActive rest ≤ 1 := by
        rw [countActive_cons] at hcount
        simp only [Branch.isActive] at hcount
        omega
      rw [noErr_selfOrChild r hnr, orElseO_none]
      simp only [Bool.false_eq_true, if_neg, not_false_iff]
      exact clean_firstBranch rest hc.2 hrest1
end

theorem resetBranches_offChainClean : ∀ (bs : List Branch),
    offChainCleanBranchList (resetBranches bs) = true
  | [] => rfl
  | .mk i l dflt c a r :: rest => by
    simp only [resetBranches, offChainCleanBranchList, Bool.false_eq_true, if_neg,
      not_false_iff, Bool.and_eq_true]
    exact ⟨reset_noErr r, resetBranches_offChainClean rest⟩

theorem resolveBranchList_pastSel (g : Graph) (cg : String → Option ConfigValue)
    (fp : String) (sel : Nat) : ∀ (i : Nat) (bs : List Branch), sel < i →
    resolveBranchList g cg fp sel i bs = (resetBranches bs, none)
  | _, [], _ => rfl
  | i, .mk bid lbl dflt c a child :: rest, hlt => by
    have hne : (i == sel) = false := by
      simp only [beq_eq_false_iff_ne]
      omega
    unfold resolveBranchList
    rw [hne]
    simp only [Bool.false_eq_true, if_neg, not_false_iff]
    rw [resolveBranchList_pastSel g cg fp sel (i+1) rest (by omega)]
    rfl

mutual
/-- Every `resolve` result satisfies the off-chain-clean invariant: at
most one branch active per level, inactive branches error-free, invariant
continuing along the active branch. -/
theorem resolve_offChainClean (g : Graph) (cg : String → Option ConfigValue)
    (fp : String) : ∀ (r : Resolver),
    offChainClean (Resolver.resolve g cg fp r).res = true
  | .mk ck rdef st deps => by
    cases hh : cacheHitOf cg (cacheKeyOf ck fp) with
    | some v =>
      rw [resolve_hit g cg fp ck rdef st deps v hh]
      cases rdef with
      | leafDef fn => rfl
      | branchesDef bs =>
        simp only [RDef.reset, offChainClean, Bool.and_eq_true, decide_eq_true_eq]
        refine ⟨?_, resetBranches_offChainClean bs⟩
        rw [countActive_of_allInactive _ (resetBranches_allInactive bs)]
        omega
    | none =>
      cases rdef with
      | leafDef fn =>
        rcases hre : runEval g { ctxPaths := [], resolverDeps := deps.dropResolution } fn
          with ⟨cd1, res⟩
        cases res with
        | ok v =>
          rw [resolve_miss_leaf_ok g cg fp ck fn st deps cd1 v hh hre]
          rfl
        | error e =>
          rw [resolve_miss_leaf_error g cg fp ck fn st deps cd1 e hh hre]
          rfl
      | branchesDef bs =>
        rcases hs : condScan g { ctxPaths := [], resolverDeps := deps.dropResolution }
          none 0 bs with ⟨cd1, errLast, matchIdx⟩
        have hreset : offChainClean
            (Resolver.mk ck (.branchesDef (resetBranches bs))
              { isResolved := st.isResolved, resolvedValue := st.resolvedValue,
                resolutionError := none, isUsingCache := st.isUsingCache }
              cd1.resolverDeps) = true := by
          simp only [offChainClean, Bool.and_eq_true, decide_eq_true_eq]
          refine ⟨?_, resetBranches_offChainClean bs⟩
          rw [countActive_of_allInactive _ (resetBranches_allInactive bs)]
          omega
        cases errLast with
        | some e =>
          rw [resolve_miss_branches_scanErr g cg fp ck bs st deps _ e hh hs rfl]
          simp only [offChainClean, Bool.and_eq_true, decide_eq_true_eq]
          refine ⟨?_, resetBranches_offChainClean bs⟩
          rw [countActive_of_allInactive _ (resetBranches_allInactive bs)]
          omega
        | none =>
          have hselCases : ∀ (sel : Nat),
              (match (ScanOut.mk cd1 none matchIdx).matchIdx with
               | some i => some i
               | none => findIdxFrom Branch.isDefault 0 bs) = some sel →
              offChainClean (Resolver.resolve g cg fp
                (.mk ck (.branchesDef bs) st deps)).res = true := by
            intro sel hsel
            rcases hrb : resolveBranchList g cg fp sel 0 bs with ⟨bs', o⟩
            have hbl := resolveBranchList_offChainClean g cg fp sel 0 bs
            rw [hrb] at hbl
            cases o with
            | none =>
              rw [resolve_miss_branches_selDead g cg fp ck bs st deps _ sel bs' hh hs
                rfl hsel hrb]
              simp only [offChainClean, Bool.and_eq_true, decide_eq_true_eq]
              exact ⟨hbl.2, hbl.1⟩
            | some childOut =>
              rw [resolve_miss_branches_sel g cg fp ck bs st deps _ sel bs' childOut
                hh hs rfl hsel hrb]
              cases childOut.outcome <;>
                (simp only [offChainClean, Bool.and_eq_true, decide_eq_true_eq]
                 exact ⟨hbl.2, hbl.1⟩)
          cases matchIdx with
          | some i => exact hselCases i rfl
          | none =>
            cases hd : findIdxFrom Branch.isDefault 0 bs with
            | none =>
              rw [resolve_miss_branches_noSel g cg fp ck bs st deps _ hh hs rfl rfl hd]
              exact hreset
            | some sel => exact hselCases sel hd
/-- Branch-list form of `resolve_offChainClean` for the fused
activate-and-resolve walk. -/
theorem resolveBranchList_offChainClean (g : Graph) (cg : String → Option ConfigValue)
    (fp : String) (sel : Nat) : ∀ (i : Nat) (bs : List Branch),
    offChainCleanBranchList (resolveBranchList g cg fp sel i bs).1 = true
    ∧ countActive (resolveBranchList g cg fp sel i bs).1 ≤ 1
  | _, [] => ⟨rfl, by simp [resolveBranchList, countActive]⟩
  | i, .mk bid lbl dflt c a child :: rest => by
    by_cases hi : (i == sel) = true
    · have hlt : sel < i + 1 := by
        simp only [beq_iff_eq] at hi
        omega
      unfold resolveBranchList
      rw [hi]
      simp only [if_pos]
      rw [resolveBranchList_pastSel g cg fp sel (i+1) rest hlt]
      dsimp only
      constructor
      · simp only [offChainCleanBranchList, Bool.and_eq_true, if_pos]
        exact ⟨resolve_offChainClean g cg (childFullPath fp bid) child,
          resetBranches_offChainClean rest⟩
      · rw [countActive_cons]
        have h0 : countActive (resetBranches rest) = 0 :=
          countActive_of_allInactive _ (resetBranches_allInactive rest)
        simp only [Branch.isActive, if_pos, h0]
        omega
    · have hif : (i == sel) = false := by simpa using hi
      rcases hr : resolveBranchList g cg fp sel (i+1) rest with ⟨rest', o⟩
      have ih := resolveBranchList_offChainClean g cg fp sel (i+1) rest
      rw [hr] at ih
      unfold resolveBranchList
      rw [hif, hr]
      dsimp only
      simp only [Bool.false_eq_true, if_neg, not_false_iff]
      constructor
      · simp only [offChainCleanBranchList, Bool.and_eq_true, Bool.false_eq_true, if_neg,
          not_false_iff]
        exact ⟨reset_noErr child, ih.1⟩
      · rw [countActive_cons]
        simp only [Branch.isActive, Bool.false_eq_true, if_neg, not_false_iff,
          Nat.zero_add]
        exact ih.2
end

/-- C4: after any `resolve`, `isFullyResolved` holds exactly when
`isResolved` is `true`, the resolver's own `resolutionError` is absent, and
no error sits along the active branch chain (the chosen branch's inner
resolver, recursively) — on post-`resolve` states the code's all-branches
walk coincides with the spec's active-chain walk, because errors only ever
live along the chain just resolved.  In particular (concrete conjuncts):
a branch-set whose active branch's inner resolver carries a
`resolutionError` reports `isFullyResolved = false` even though its own
`isResolved` is `true`. -/
theorem isFullyResolved_spec :
    (∀ (g : Graph) (cg : String → Option ConfigValue) (fp : String) (r : Resolver),
      (Resolver.resolve g cg fp r).res.isFullyResolved
        = ((Resolver.resolve g cg fp r).res.st.isResolved
           && ((Resolver.resolve g cg fp r).res.st.resolutionError).isNone
           && (activeChainError (Resolver.resolve g cg fp r).res).isNone))
    ∧ (failingChildSet.resolve gX ResolverContext.getCacheItem "root!N").res.st.isResolved
        = true
    ∧ ((failingChildSet.resolve gX ResolverContext.getCacheItem "root!N").res.branches.find?
        Branch.isActive).isSome = true
    ∧ (activeChainError (failingChildSet.resolve gX ResolverContext.getCacheItem
        "root!N").res).isSome = true
    ∧ (failingChildSet.resolve gX ResolverContext.getCacheItem "root!N").res.isFullyResolved
        = false := by
  refine ⟨?_, rfl, rfl, rfl, rfl⟩
  intro g cg fp r
  have hc := resolve_offChainClean g cg fp r
  unfold Resolver.isFullyResolved
  rw [clean_selfOrChild _ hc, orElseO_isNone, Bool.and_assoc]

theorem get_snd_const (g : Graph) (x : String) (cd cd' : CtxDeps) :
    (ResolverContext.get g cd x).2 = (ResolverContext.get g cd' x).2 := by
  unfold ResolverContext.get
  cases g.getConfigNodeByPath x with
  | none => rfl
  | some node =>
    dsimp only
    split
    · rfl
    · split
      · rfl
      · split <;> rfl

theorem runCond_snd_const (g : Graph) (c : CondFn) :
    ∀ (cd cd' : CtxDeps), (runCond g cd c).2 = (runCond g cd' c).2 := by
  induction c with
  | retB b => intro _ _; rfl
  | thrwC t => intro _ _; rfl
  | getThenC p k ih =>
    intro cd cd'
    unfold runCond
    rcases hg : ResolverContext.get g cd p with ⟨cd1, res⟩
    rcases hg' : ResolverContext.get g cd' p with ⟨cd1', res'⟩
    have heq : res = res' := by
      have hconst := get_snd_const g p cd cd'
      rw [hg, hg'] at hconst
      exact hconst
    subst heq
    cases res with
    | ok v => exact ih v cd1 cd1'
    | error e => rfl

theorem condScan_matchIdx_eq (g : Graph) : ∀ (bs : List Branch) (cd : CtxDeps)
    (err : Option Thrown) (i : Nat),
    (condScan g cd err i bs).matchIdx = findIdxFrom (branchMatchesPure g) i bs := by
  intro bs
  induction bs with
  | nil => intro cd err i; rfl
  | cons b rest ih =>
    intro cd err i
    unfold condScan findIdxFrom
    by_cases hd : b.isDefault = true
    · have hp : branchMatchesPure g b = false := by
        simp [branchMatchesPure, hd]
      rw [hp]
      simp only [hd, if_pos, Bool.false_eq_true, if_neg, not_false_iff]
      exact ih cd err (i+1)
    · have hd' : b.isDefault = false := by simpa using hd
      rw [hd']
      simp only [Bool.false_eq_true, if_neg, not_false_iff]
      rcases hrc : runCond g cd b.condition with ⟨cd1, res⟩
      have hpe : evalCondPure g b.condition = res := by
        unfold evalCondPure
        have hconst := runCond_snd_const g b.condition
          { ctxPaths := [], resolverDeps := [] } cd
        rw [hrc] at hconst
        exact hconst
      have hp : branchMatchesPure g b
          = (match res with | .ok bv => bv | .error _ => false) := by
        simp only [branchMatchesPure, hd', hpe, Bool.not_false, Bool.true_and]
        cases res <;> rfl
      rw [hp]
      cases res with
      | ok bv =>
        cases bv with
        | true => simp
        | false =>
          simp only [Bool.false_eq_true, if_neg, not_false_iff]
          exact ih cd1 err (i+1)
      | error e =>
        simp only [Bool.false_eq_true, if_neg, not_false_iff]
        exact ih cd1 _ (i+1)

theorem resolveBranchList_activeFlags (g : Graph) (cg : String → Option ConfigValue)
    (fp : String) (s : Nat) : ∀ (i : Nat) (bs : List Branch),
    activeFlags (resolveBranchList g cg fp s i bs).1 = selFlagsOpt (some s) i bs
  | _, [] => rfl
  | i, .mk bid lbl dflt c a child :: rest => by
    unfold resolveBranchList
    by_cases hi : (i == s) = true
    · rw [hi]
      simp only [if_pos]
      simp only [activeFlags, List.map_cons, Branch.isActive, selFlagsOpt, hi]
      exact congrArg (List.cons true) (resolveBranchList_activeFlags g cg fp s (i+1) rest)
    · have hif : (i == s) = false := by simpa using hi
      rw [hif]
      simp only [Bool.false_eq_true, if_neg, not_false_iff]
      simp only [activeFlags, List.map_cons, Branch.isActive, selFlagsOpt, hif]
      exact congrArg (List.cons false) (resolveBranchList_activeFlags g cg fp s (i+1) rest)

theorem resetBranches_activeFlags : ∀ (i : Nat) (bs : List Branch),
    activeFlags (resetBranches bs) = selFlagsOpt none i bs
  | _, [] => rfl
  | i, .mk bid lbl dflt c a child :: rest => by
    simp only [resetBranches, activeFlags, List.map_cons, Branch.isActive, selFlagsOpt]
    exact congrArg (List.cons false) (resetBranches_activeFlags (i+1) rest)

theorem offChainClean_branches_le_one (r : Resolver) (h : offChainClean r = true) :
    countActive r.branches ≤ 1 := by
  obtain ⟨ck, d, st, deps⟩ := r
  cases d with
  | leafDef fn => simp [Resolver.branches, Resolver.rdef, countActive]
  | branchesDef bs =>
    simp only [offChainClean, Bool.and_eq_true, decide_eq_true_eq] at h
    simpa [Resolver.branches, Resolver.rdef] using h.1

/-- C6: branch exclusivity.  (1) After any `resolve` call on a branch-set
resolver, at most one branch is active.  (2) With no cache hit and no
condition throwing, the `isActive` flags are `true` exactly at the selected
index: the first non-default branch in declared order whose condition
returned `true`, or else the (first) default branch — and when neither
exists no branch is active (the call throws the no-default
misconfiguration error instead).  (3) If a condition threw, the attempt
failed before selection and no branch is active. -/
theorem branch_exclusivity (g : Graph) (cg : String → Option ConfigValue)
    (fp : String) (ck : Option CacheKeyDef) (bs : List Branch) (st : RState)
    (deps : DepMap) :
    countActive (Resolver.resolve g cg fp
        (.mk ck (.branchesDef bs) st deps)).res.branches ≤ 1
    ∧ (cacheHitOf cg (cacheKeyOf ck fp) = none →
       (condScan g { ctxPaths := [], resolverDeps := deps.dropResolution }
          none 0 bs).errLast = none →
       activeFlags (Resolver.resolve g cg fp
           (.mk ck (.branchesDef bs) st deps)).res.branches
         = selFlagsOpt
             (match findIdxFrom (branchMatchesPure g) 0 bs with
              | some i => some i
              | none => findIdxFrom Branch.isDefault 0 bs) 0 bs)
    ∧ (cacheHitOf cg (cacheKeyOf ck fp) = none →
       ∀ e, (condScan g { ctxPaths := [], resolverDeps := deps.dropResolution }
          none 0 bs).errLast = some e →
       countActive (Resolver.resolve g cg fp
           (.mk ck (.branchesDef bs) st deps)).res.branches = 0) := by
  refine ⟨?_, ?_, ?_⟩
  · exact offChainClean_branches_le_one _ (resolve_offChainClean g cg fp _)
  · intro hm hsc
    rcases hs : condScan g { ctxPaths := [], resolverDeps := deps.dropResolution }
      none 0 bs with ⟨cd1, errLast, matchIdx⟩
    rw [hs] at hsc
    dsimp only at hsc
    subst hsc
    have hmi : matchIdx = findIdxFrom (branchMatchesPure g) 0 bs := by
      have hx := condScan_matchIdx_eq g bs
        { ctxPaths := [], resolverDeps := deps.dropResolution } none 0
      rw [hs] at hx
      exact hx
    have hselCases : ∀ (sel : Nat),
        (match (ScanOut.mk cd1 none matchIdx).matchIdx with
         | some i => some i
         | none => findIdxFrom Branch.isDefault 0 bs) = some sel →
        activeFlags (Resolver.resolve g cg fp
            (.mk ck (.branchesDef bs) st deps)).res.branches
          = selFlagsOpt (some sel) 0 bs := by
      intro sel hsel
      rcases hrb : resolveBranchList g cg fp sel 0 bs with ⟨bs', o⟩
      have hfl := resolveBranchList_activeFlags g cg fp sel 0 bs
      rw [hrb] at hfl
      cases o with
      | none =>
        rw [resolve_miss_branches_selDead g cg fp ck bs st deps _ sel bs' hm hs rfl
          hsel hrb]
        simpa [Resolver.branches, Resolver.rdef] using hfl
      | some childOut =>
        rw [resolve_miss_branches_sel g cg fp ck bs st deps _ sel bs' childOut
          hm hs rfl hsel hrb]
        cases childOut.outcome <;> simpa [Resolver.branches, Resolver.rdef] using hfl
    cases hmiv : matchIdx with
    | some i =>
      rw [hmiv] at hmi
      rw [← hmi]
      exact hselCases i (by rw [hmiv])
    | none =>
      rw [hmiv] at hmi
      rw [← hmi]
      cases hd : findIdxFrom Branch.isDefault 0 bs with
      | none =>
        rw [resolve_miss_branches_noSel g cg fp ck bs st deps _ hm hs rfl
          (by rw [hmiv]) hd]
        simpa [Resolver.branches, Resolver.rdef] using resetBranches_activeFlags 0 bs
      | some sel =>
        have hsel : (match (ScanOut.mk cd1 none matchIdx).matchIdx with
            | some i => some i
            | none => findIdxFrom Branch.isDefault 0 bs) = some sel := by
          rw [hmiv]
          exact hd
        exact hselCases sel hsel
  · intro hm e hsc
    rcases hs : condScan g { ctxPaths := [], resolverDeps := deps.dropResolution }
      none 0 bs with ⟨cd1, errLast, matchIdx⟩
    rw [hs] at hsc
    dsimp only at hsc
    subst hsc
    rw [resolve_miss_branches_scanErr g cg fp ck bs st deps _ e hm hs rfl]
    simp only [Resolver.branches, Resolver.rdef]
    exact countActive_of_allInactive _ (resetBranches_allInactive bs)

/-- Witness for C6 on the concrete `switchBy` resolver of C8: at most one
branch active, and the flags select exactly the first matching branch. -/
theorem branch_exclusivity_witness :
    countActive (swResolver.resolve gProd ResolverContext.getCacheItem
        "root!SVC").res.branches ≤ 1
    ∧ activeFlags (swResolver.resolve gProd ResolverContext.getCacheItem
          "root!SVC").res.branches
        = selFlagsOpt
            (match findIdxFrom (branchMatchesPure gProd) 0 swResolver.branches with
             | some i => some i
             | none => findIdxFrom Branch.isDefault 0 swResolver.branches)
            0 swResolver.branches := by
  have h := branch_exclusivity gProd ResolverContext.getCacheItem "root!SVC" none
    swResolver.branches initRState []
  exact ⟨h.1, h.2.1 rfl rfl⟩
